import Mathlib

/-!
Verification development for the device session orchestrator of the
python-kasa excerpt (kasa/smart/smartdevice.py and
kasa/smart/modules/childsetup.py).

The Python code is embedded shallowly:

* JSON-like values become the inductive `JVal`; protocol responses map
  method names either to a payload object or to a numeric `SmartErrorCode`
  sentinel (`RVal`).
* Python dicts become association lists with python dict semantics
  (assignment keeps the position of an existing key, `dict.update` merges
  per top-level key).
* The network transport is threaded as oracle functions: the batched
  `protocol.query` call is a function from the request to
  `Option response` (`none` models a raised transport failure), and the
  per-key retry of `_handle_modular_update_error` is a function from the
  key and its params to `Option RVal`.
* Raised exceptions become `Except KErr`; state mutated before a raise is
  returned alongside the error, mirroring in-place mutation.
* A module `_post_update_hook` either succeeds or raises; this binary
  outcome is the `hookOk` field of a module state.
-/

/-- JSON-like value appearing in device info records and responses. -/
inductive JVal where
  | b (v : Bool)
  | n (v : Int)
  | s (v : String)
  | arr (xs : List JVal)
  | obj (fs : List (String × JVal))

/-- Python truthiness of a `JVal` (empty list, empty dict, empty string,
zero and False are falsy). -/
def jtruthy : JVal → Bool
  | .b v => v
  | .n v => v != 0
  | .s v => v != ""
  | .arr xs => !xs.isEmpty
  | .obj fs => !fs.isEmpty

/-- Python truthiness of `d.get(k)`: a missing key yields `None`, which is
falsy. -/
def otruthy : Option JVal → Bool
  | none => false
  | some v => jtruthy v

/-- Value stored for one method key of a protocol response: either a
payload object or a `SmartErrorCode` sentinel. -/
inductive RVal where
  | payload (fs : List (String × JVal))
  | errcode (c : Int)

/-- Value of `SmartErrorCode.INTERNAL_QUERY_ERROR` from kasa.exceptions
(outside the excerpt); only the identity of the sentinel matters here. -/
def INTERNAL_QUERY_ERROR : Int := -1001

/-- Request params for one method key (`None` or a JSON object). -/
abbrev Param := Option JVal

/-- Exceptions raised by the embedded code. -/
inductive KErr where
  | authenticationError
  | kasaException
  | keyError (k : String)
  | typeError
  deriving DecidableEq

/-- Lookup in a python dict modelled as an association list
(`d.get(k)` and `d[k]` both read the unique entry for `k`). -/
def dget {α : Type} (d : List (String × α)) (k : String) : Option α :=
  (d.find? (fun p => p.1 == k)).map (fun p => p.2)

/-- Keys of a python dict modelled as an association list. -/
def dkeys {α : Type} (d : List (String × α)) : List String :=
  d.map (fun p => p.1)

/-- Python dict assignment `d[k] = v`: an existing key keeps its position
and gets the new value, a new key is appended. -/
def dinsert {α : Type} (d : List (String × α)) (k : String) (v : α) :
    List (String × α) :=
  if d.any (fun p => p.1 == k) then
    d.map (fun p => if p.1 == k then (k, v) else p)
  else
    d ++ [(k, v)]

/-- Python `d.update(e)`: every entry of `e` is assigned into `d` in
order. -/
def dupdate {α : Type} (d e : List (String × α)) : List (String × α) :=
  e.foldl (fun acc p => dinsert acc p.1 p.2) d

/-- Membership test `k in d` for a python dict. -/
def dhas {α : Type} (d : List (String × α)) (k : String) : Bool :=
  d.any (fun p => p.1 == k)

/-- State of one `SmartModule` as seen by the orchestrator.  Field
correspondence to the source: `query` is the request fragment returned by
`module.query()` (an empty fragment is falsy and keeps the module out of
`mq`); `interval` is `MINIMUM_UPDATE_INTERVAL_SECS`; `lastUpdateTime` is
`_last_update_time`; `firstUpdateModule` records whether the module class
is in `FIRST_UPDATE_MODULES`; `hookOk` records whether
`_post_update_hook()` returns normally (false models a raise); `features`
are the feature ids the module contributes via `_initialize_features`. -/
structure SMod where
  name : String
  query : List (String × Param)
  interval : Nat
  lastUpdateTime : Option Int
  firstUpdateModule : Bool
  hookOk : Bool
  features : List String

/-- Device categories from kasa.device_type. -/
inductive DeviceType where
  | Plug | Bulb | Strip | WallSwitch | LightStrip
  | Dimmer | Hub | Sensor | Thermostat | Unknown
  deriving DecidableEq

/-- State of one child device (`SmartChildDevice`), as far as the parent
sweep in `SmartDevice.update` touches it. -/
structure ChildState where
  childId : String
  info : List (String × JVal)
  modules : List SMod
  features : List String

/-- State of a `SmartDevice`.  `credentials` and `credentialsHash` record
presence of `self.credentials` / `self.credentials_hash`; `components`
is the negotiated capability id set; `info` is `_info`; `modules` is the
insertion-ordered `_modules` dict (keyed by the unique module name);
`lastUpdate` is `_last_update`; `lastUpdateTime` is `_last_update_time`;
`features` holds the registered feature ids; `deviceTypeCache` is
`_device_type` (`Unknown` meaning not yet computed);
`renegotiationPending` models the flag set by `request_renegotiation`. -/
structure DevState where
  credentials : Bool
  credentialsHash : Bool
  components : List String
  info : List (String × JVal)
  modules : List SMod
  children : List ChildState
  lastUpdate : List (String × RVal)
  lastUpdateTime : Option Int
  features : List String
  deviceTypeCache : DeviceType
  renegotiationPending : Bool

/-- Python falsiness of `module._last_update_time` (a float): `None` and
`0` are falsy. -/
def lutFalsy : Option Int → Bool
  | none => true
  | some t => t == 0

/-- Eligibility predicate of `_modular_update` (lines 232-237): the module
is queried when its interval is falsy, or its last-update time is falsy,
or at least the interval has elapsed since its last update. -/
def eligible (m : SMod) (t : Int) : Bool :=
  m.interval == 0 || lutFalsy m.lastUpdateTime ||
    decide ((m.interval : Int) ≤ t - m.lastUpdateTime.getD 0)

/-- Request-building loop of `_modular_update` (lines 219-239).  Walks the
modules of the `mq` dict comprehension in insertion order threading the
`req` dict; returns the module list after the loop (whitelisted modules
were stamped with `update_time` on a first update), the names appended to
`module_queries`, and the final `req`. -/
def buildPhase (fu : Bool) (t : Int) :
    List SMod → List (String × Param) →
      List SMod × List String × List (String × Param)
  | [], req => ([], [], req)
  | m :: rest, req =>
    if m.query.isEmpty then
      -- module.query() was falsy: the module never enters mq
      let r := buildPhase fu t rest req
      (m :: r.1, r.2.1, r.2.2)
    else if fu && m.firstUpdateModule then
      -- first update: FIRST_UPDATE_MODULES are marked updated, not queried
      let r := buildPhase fu t rest req
      ({ m with lastUpdateTime := some t } :: r.1, r.2.1, r.2.2)
    else if eligible m t then
      let r := buildPhase fu t rest (dupdate req m.query)
      (m :: r.1, m.name :: r.2.1, r.2.2)
    else
      let r := buildPhase fu t rest req
      (m :: r.1, r.2.1, r.2.2)

/-- Effect of the first-update whitelist branch of the loop on one module
(lines 229-231): a module of `FIRST_UPDATE_MODULES` with a truthy query is
stamped with the cycle time without being queried. -/
def wlMark (fu : Bool) (t : Int) (m : SMod) : SMod :=
  if !m.query.isEmpty && (fu && m.firstUpdateModule) then
    { m with lastUpdateTime := some t }
  else m

/-- A module reaching `module_queries`: truthy query, not short-circuited
by the first-update whitelist, and eligible by its interval. -/
def chosen (fu : Bool) (t : Int) (m : SMod) : Bool :=
  !m.query.isEmpty && !(fu && m.firstUpdateModule) && eligible m t

/-- Net per-module effect of one `_modular_update` cycle on the
last-update timestamp of a surviving module: queried modules and, on the
first cycle, whitelisted modules with a truthy query get the cycle time;
every other module keeps its previous timestamp. -/
def cycleStamp (fu : Bool) (t : Int) (m : SMod) : SMod :=
  if !m.query.isEmpty && (fu && m.firstUpdateModule) then
    { m with lastUpdateTime := some t }
  else if chosen fu t m then { m with lastUpdateTime := some t }
  else m

/-- Per-key fallback value: the value obtained by a successful individual
retry, or the `INTERNAL_QUERY_ERROR` sentinel when the retry raised. -/
def fbVal (retry : String → Param → Option RVal) (k : String) (p : Param) :
    RVal :=
  match retry k p with
  | some v => v
  | none => RVal.errcode INTERNAL_QUERY_ERROR

/-- Fallback loop of `_handle_modular_update_error` (lines 293-307): every
key of the failed batch request is replayed individually and assigned into
the `responses` dict, a raising retry becoming the sentinel. -/
def handle_modular_update_error (retry : String → Param → Option RVal) :
    List (String × Param) → List (String × RVal) → List (String × RVal)
  | [], responses => responses
  | (meth, params) :: rest, responses =>
      handle_modular_update_error retry rest
        (dinsert responses meth (fbVal retry meth params))

/-- Embedding of `_try_get_response` (lines 109-125): a `SmartErrorCode`
value is treated like a missing key; a missing value falls back to the
default when one is given and raises `KasaException` otherwise. -/
def try_get_response (responses : List (String × RVal)) (request : String)
    (dflt : Option (List (String × JVal))) :
    Except KErr (List (String × JVal)) :=
  let response : Option (List (String × JVal)) :=
    match dget responses request with
    | some (RVal.payload v) => some v
    | some (RVal.errcode _) => none
    | none => none
  match response with
  | some v => Except.ok v
  | none =>
    match dflt with
    | some d => Except.ok d
    | none => Except.error KErr.kasaException

/-- Embedding of `_handle_module_post_update_hook` (lines 202-213): the
hook call is wrapped in try/except and reduced to a boolean outcome. -/
def handle_module_post_update_hook (m : SMod) : Bool :=
  m.hookOk

/-- Batch request assembled by `_modular_update` for one cycle. -/
def cycleReq (st : DevState) (fu : Bool) (t : Int) :
    List (String × Param) :=
  (buildPhase fu t st.modules []).2.2

/-- Response obtained by `_modular_update` for one cycle: the batched
query when the transport succeeds, else the per-key fallback. -/
def cycleResp (st : DevState) (fu : Bool) (t : Int)
    (batch : List (String × Param) → Option (List (String × RVal)))
    (retry : String → Param → Option RVal) : List (String × RVal) :=
  match batch (cycleReq st fu t) with
  | some r => r
  | none => handle_modular_update_error retry (cycleReq st fu t) []

/-- Embedding of `_modular_update` (lines 215-270).  The returned state
carries every mutation performed before a raise: on a failing
`_try_get_response` the whitelist stamps and the `_last_update` merge have
already happened, while hooks, evictions and the final timestamp loop have
not.  Note that on a first update `info_resp` aliases `_last_update`, so
the `get_device_info` lookup reads the merged dict. -/
def modular_update (st : DevState) (fu : Bool) (t : Int)
    (batch : List (String × Param) → Option (List (String × RVal)))
    (retry : String → Param → Option RVal) :
    DevState × Except KErr (List (String × RVal)) :=
  let bp := buildPhase fu t st.modules []
  let mods1 := bp.1
  let moduleQueries := bp.2.1
  let resp := cycleResp st fu t batch retry
  let merged := dupdate st.lastUpdate resp
  let infoResp := if fu then merged else resp
  match try_get_response infoResp "get_device_info" none with
  | Except.error e =>
    ({ st with modules := mods1, lastUpdate := merged }, Except.error e)
  | Except.ok newInfo =>
    let mods2 := mods1.filter (fun m => handle_module_post_update_hook m)
    let mods3 := mods2.map (fun m =>
      if moduleQueries.contains m.name then
        { m with lastUpdateTime := some t }
      else m)
    ({ st with modules := mods3, lastUpdate := merged, info := newInfo },
     Except.ok resp)

/-- Substring test `needle in hay` on python strings. -/
def listIsPfx : List Char → List Char → Bool
  | [], _ => true
  | _ :: _, [] => false
  | a :: as, b :: bs => a == b && listIsPfx as bs

/-- Helper for `strContains`: the needle occurs contiguously in the hay. -/
def listHasSub (needle : List Char) : List Char → Bool
  | [] => needle.isEmpty
  | c :: rest => listIsPfx needle (c :: rest) || listHasSub needle rest

/-- Python `needle in hay` for strings. -/
def strContains (hay needle : String) : Bool :=
  listHasSub needle.toList hay.toList

/-- Embedding of the static classifier
`_get_device_type_from_components` (lines 707-733). -/
def get_device_type_from_components (components : List String)
    (device_type : String) : DeviceType :=
  if strContains device_type "HUB" then DeviceType.Hub
  else if strContains device_type "PLUG" then
    if components.contains "child_device" then DeviceType.Strip
    else DeviceType.Plug
  else if components.contains "light_strip" then DeviceType.LightStrip
  else if strContains device_type "SWITCH" &&
      components.contains "child_device" then DeviceType.WallSwitch
  else if components.contains "dimmer_calibration" then DeviceType.Dimmer
  else if components.contains "brightness" then DeviceType.Bulb
  else if strContains device_type "SWITCH" then DeviceType.WallSwitch
  else if strContains device_type "SENSOR" then DeviceType.Sensor
  else if strContains device_type "ENERGY" then DeviceType.Thermostat
  else DeviceType.Plug

/-- Classifier transcribed from the wording of spec section 4.1, to be
compared with the definition taken from the source. -/
def classifySpec (capabilityIds : List String) (deviceTypeTag : String) :
    DeviceType :=
  if strContains deviceTypeTag "HUB" then DeviceType.Hub
  else if strContains deviceTypeTag "PLUG" then
    if capabilityIds.contains "child_device" then DeviceType.Strip
    else DeviceType.Plug
  else if capabilityIds.contains "light_strip" then DeviceType.LightStrip
  else if strContains deviceTypeTag "SWITCH" &&
      capabilityIds.contains "child_device" then DeviceType.WallSwitch
  else if capabilityIds.contains "dimmer_calibration" then DeviceType.Dimmer
  else if capabilityIds.contains "brightness" then DeviceType.Bulb
  else if strContains deviceTypeTag "SWITCH" then DeviceType.WallSwitch
  else if strContains deviceTypeTag "SENSOR" then DeviceType.Sensor
  else if strContains deviceTypeTag "ENERGY" then DeviceType.Thermostat
  else DeviceType.Plug

/-- Embedding of the `device_type` property (lines 695-705): the cached
value is returned when present, else the classifier runs on
`_components.keys()` and `_info["type"]`; a missing key raises `KeyError`
and a non-string tag would raise `TypeError` in the `in` tests. -/
def getDeviceType (st : DevState) : DevState × Except KErr DeviceType :=
  if st.deviceTypeCache ≠ DeviceType.Unknown then
    (st, Except.ok st.deviceTypeCache)
  else
    match dget st.info "type" with
    | none => (st, Except.error (KErr.keyError "type"))
    | some (JVal.s ty) =>
      let dt := get_device_type_from_components st.components ty
      ({ st with deviceTypeCache := dt }, Except.ok dt)
    | some _ => (st, Except.error KErr.typeError)

/-- Seconds accepted by `timedelta(seconds=x)`: booleans coerce to 0/1,
numbers pass through, anything else raises `TypeError`. -/
def jseconds : JVal → Option Int
  | JVal.b v => some (if v then 1 else 0)
  | JVal.n v => some v
  | _ => none

/-- Embedding of the `on_since` property (lines 487-497).  `self.time`
(supplied by the Time module or the parent, outside this excerpt) is
threaded as the `deviceTime` argument. -/
def on_since (info : List (String × JVal)) (deviceTime : Int) :
    Except KErr (Option Int) :=
  if otruthy (dget info "device_on") = false then Except.ok none
  else
    match dget info "on_time" with
    | none => Except.ok none
    | some v =>
      match jseconds v with
      | some secs => Except.ok (some (deviceTime - secs))
      | none => Except.error KErr.typeError

/-- Modelled from the spec: `Device._add_feature` is outside the excerpt;
the feature registry merges contributed features by id (section 4.3). -/
def addFeature (feats : List String) (fid : String) : List String :=
  if feats.contains fid then feats else feats ++ [fid]

/-- Embedding of `_initialize_features` for one device (lines 351-447):
intrinsic features gated by raw-info key presence, then every active
module contributes its features. -/
def initialize_features_own (info : List (String × JVal))
    (mods : List SMod) (feats : List String) : List String :=
  let f := addFeature feats "device_id"
  let f := if dhas info "device_on" then addFeature f "state" else f
  let f := if dhas info "signal_level" then addFeature f "signal_level" else f
  let f := if dhas info "rssi" then addFeature f "rssi" else f
  let f := if dhas info "ssid" then addFeature f "ssid" else f
  let f := if dhas info "overheated" then addFeature f "overheated" else f
  let f := if dhas info "on_time" then addFeature f "on_since" else f
  mods.foldl (fun acc m => m.features.foldl addFeature acc) f

/-- Feature initialization for the device and, recursively, its children
(lines 448-449). -/
def initialize_features (st : DevState) : DevState :=
  { st with
    features := initialize_features_own st.info st.modules st.features,
    children := st.children.map (fun c =>
      { c with
        features := initialize_features_own c.info c.modules c.features }) }

/-- The intrinsic feature ids `_initialize_features` can register from raw
info (lines 351-442). -/
def intrinsicFeatureIds : List String :=
  ["device_id", "state", "signal_level", "rssi", "ssid", "overheated",
   "on_since"]

/-- Sequential child update loop (lines 174-176); `child._update()` lives
in SmartChildDevice outside the excerpt and is threaded as the oracle
`f`.  A raise leaves the remaining children untouched. -/
def childUpdLoop (f : ChildState → Except KErr ChildState) :
    List ChildState → List ChildState × Except KErr Unit
  | [] => ([], Except.ok ())
  | c :: rest =>
    match f c with
    | Except.error e => (c :: rest, Except.error e)
    | Except.ok c2 =>
      let r := childUpdLoop f rest
      (c2 :: r.1, r.2)

/-- Runs the child update loop against the device state. -/
def runChildUpdates (st : DevState)
    (f : ChildState → Except KErr ChildState) :
    DevState × Except KErr Unit :=
  let r := childUpdLoop f st.children
  ({ st with children := r.1 }, r.2)

/-- Condition and loop of lines 174-176: `update_children or
self.device_type != DeviceType.Hub`, with python short-circuit so the
device type (which may raise) is only computed when needed. -/
def childBranch (st : DevState) (updateChildren : Bool)
    (f : ChildState → Except KErr ChildState) :
    DevState × Except KErr Unit :=
  if updateChildren then runChildUpdates st f
  else
    match getDeviceType st with
    | (st2, Except.error e) => (st2, Except.error e)
    | (st2, Except.ok dt) =>
      if dt ≠ DeviceType.Hub then runChildUpdates st2 f
      else (st2, Except.ok ())

/-- Writes one pushed info record into the matching child
(`self._children[cid]._update_internal_state(info)`); `none` models the
`KeyError` for an unknown child id. -/
def setChildInfo (cs : List ChildState) (cid : String)
    (info : List (String × JVal)) : Option (List ChildState) :=
  if cs.any (fun c => c.childId == cid) then
    some (cs.map (fun c =>
      if c.childId == cid then { c with info := info } else c))
  else none

/-- Loop of lines 180-181 pushing each listed child info record down by
identity. -/
def pushChildLoop (cs : List ChildState) :
    List JVal → List ChildState × Except KErr Unit
  | [] => (cs, Except.ok ())
  | item :: rest =>
    match item with
    | JVal.obj fs =>
      match dget fs "device_id" with
      | some (JVal.s cid) =>
        match setChildInfo cs cid fs with
        | some cs2 => pushChildLoop cs2 rest
        | none => (cs, Except.error (KErr.keyError cid))
      | some _ => (cs, Except.error KErr.typeError)
      | none => (cs, Except.error (KErr.keyError "device_id"))
    | _ => (cs, Except.error KErr.typeError)

/-- Embedding of lines 177-181: when `_last_update` holds a truthy
`get_child_device_list` payload, its `child_device_list` entries are
pushed into the children. -/
def pushChildInfo (st : DevState) : DevState × Except KErr Unit :=
  match try_get_response st.lastUpdate "get_child_device_list"
      (some []) with
  | Except.error e => (st, Except.error e)
  | Except.ok childInfo =>
    if childInfo.isEmpty then (st, Except.ok ())
    else
      match dget childInfo "child_device_list" with
      | some (JVal.arr items) =>
        let r := pushChildLoop st.children items
        ({ st with children := r.1 }, r.2)
      | some _ => (st, Except.error KErr.typeError)
      | none => (st, Except.error (KErr.keyError "child_device_list"))

/-- Embedding of lines 183-189: every child module hook runs and failing
modules are popped from the child module dict. -/
def childHookSweep (st : DevState) : DevState :=
  { st with
    children := st.children.map (fun c =>
      { c with modules := c.modules.filter (fun m =>
          handle_module_post_update_hook m) }) }

/-- Embedding of `SmartDevice.update` (lines 156-200).  The first-update
negotiation and module initialization (`_negotiate`,
`_initialize_modules`) depend on collaborators outside the excerpt (the
global module registry, the child device factory and the support probes),
so that phase is threaded as the `firstPhase` argument; every theorem
below about `update` either returns before it or runs a non-first cycle.
`batch` and `retry` are the transport oracles of `_modular_update` and
`childUpd` is `child._update()`. -/
def update (st : DevState) (updateChildren : Bool) (now : Int)
    (firstPhase : DevState → DevState × Except KErr Unit)
    (batch : List (String × Param) → Option (List (String × RVal)))
    (retry : String → Param → Option RVal)
    (childUpd : ChildState → Except KErr ChildState) :
    DevState × Except KErr Unit :=
  if !st.credentials && !st.credentialsHash then
    (st, Except.error KErr.authenticationError)
  else
    let firstUpdate := st.lastUpdateTime.isNone
    let st1 := { st with lastUpdateTime := some now }
    let fp := if firstUpdate then firstPhase st1 else (st1, Except.ok ())
    match fp with
    | (st2, Except.error e) => (st2, Except.error e)
    | (st2, Except.ok _) =>
      match modular_update st2 firstUpdate now batch retry with
      | (st3, Except.error e) => (st3, Except.error e)
      | (st3, Except.ok _) =>
        match childBranch st3 updateChildren childUpd with
        | (st4, Except.error e) => (st4, Except.error e)
        | (st4, Except.ok _) =>
          match pushChildInfo st4 with
          | (st5, Except.error e) => (st5, Except.error e)
          | (st5, Except.ok _) =>
            let st6 := childHookSweep st5
            let st7 :=
              if st6.features.isEmpty then initialize_features st6 else st6
            (st7, Except.ok ())

/-- Embedding of `ChildSetup.add_devices` (lines 84-88): one
`add_child_device_list` request via `_query_helper`, then
`request_renegotiation` (outside the excerpt; modelled from the spec as
flagging that the caller must re-negotiate, without touching the child
map).  Returns the new state, the issued requests and the protocol
response (`addResp` oracle). -/
def add_devices (st : DevState) (devices : List (String × JVal))
    (addResp : List (String × RVal)) :
    DevState × List (String × List (String × JVal)) ×
      List (String × RVal) :=
  ({ st with renegotiationPending := true },
   [("add_child_device_list", devices)],
   addResp)

/-- Embedding of `ChildSetup.unpair` (lines 77-82): one
`remove_child_device_list` request scoped to the given id, then
`request_renegotiation` as in `add_devices`. -/
def unpair (st : DevState) (device_id : String)
    (resp : List (String × RVal)) :
    DevState × List (String × List (String × JVal)) ×
      List (String × RVal) :=
  ({ st with renegotiationPending := true },
   [("remove_child_device_list",
     [("child_device_list",
       JVal.arr [JVal.obj [("device_id", JVal.s device_id)]])])],
   resp)

/-- Polling loop of `ChildSetup.pair` (lines 56-65).  `poll i` is the
payload of the i-th `get_detected_devices` response; `fuel` is the number
of polls the overall timeout admits (the loop sleeps 0.5s before each
poll and the `TimeoutError` of an expired deadline is swallowed, leaving
`discovered` empty).  The loop stops at the first response whose
`child_device_list` is truthy; a missing key raises `KeyError` past the
timeout guard. -/
def pairScanFrom (poll : Nat → List (String × JVal)) :
    Nat → Nat → Except KErr (Option (List (String × JVal)))
  | _, 0 => Except.ok none
  | i, fuel + 1 =>
    match dget (poll i) "child_device_list" with
    | none => Except.error (KErr.keyError "child_device_list")
    | some l =>
      if jtruthy l then Except.ok (some (poll i))
      else pairScanFrom poll (i + 1) fuel

/-- Embedding of `ChildSetup.pair` (lines 50-75): begin scanning, poll
until the deadline, and either return with no result (timeout, no add
request) or submit the discovered list once via `add_devices` and return
its result.  The trace records the begin request and any add request. -/
def pair (st : DevState) (poll : Nat → List (String × JVal))
    (maxPolls : Nat) (addResp : List (String × RVal)) :
    DevState × List (String × List (String × JVal)) ×
      Except KErr (Option (List (String × RVal))) :=
  let beginCall : String × List (String × JVal) :=
    ("begin_scanning_child_device", [])
  match pairScanFrom poll 0 maxPolls with
  | Except.error e => (st, [beginCall], Except.error e)
  | Except.ok none => (st, [beginCall], Except.ok none)
  | Except.ok (some discovered) =>
    let r := add_devices st discovered addResp
    (r.1, beginCall :: r.2.1, Except.ok (some r.2.2))

/-! ### Dictionary lemmas -/

theorem dget_nil {α : Type} (k : String) :
    dget ([] : List (String × α)) k = none := rfl

theorem dget_cons {α : Type} (p : String × α) (d : List (String × α))
    (k : String) :
    dget (p :: d) k = if p.1 == k then some p.2 else dget d k := by
  by_cases h : p.1 == k <;> simp [dget, List.find?_cons, h]

theorem dupdate_nil {α : Type} (d : List (String × α)) :
    dupdate d [] = d := rfl

theorem dupdate_cons {α : Type} (d : List (String × α)) (p : String × α)
    (e : List (String × α)) :
    dupdate d (p :: e) = dupdate (dinsert d p.1 p.2) e := rfl

theorem dkeys_nil {α : Type} : dkeys ([] : List (String × α)) = [] := rfl

theorem dkeys_cons {α : Type} (p : String × α) (d : List (String × α)) :
    dkeys (p :: d) = p.1 :: dkeys d := rfl

theorem dget_eq_none_iff {α : Type} (d : List (String × α)) (k : String) :
    dget d k = none ↔ k ∉ dkeys d := by
  induction d with
  | nil => simp [dget, dkeys]
  | cons p rest ih =>
    rw [dget_cons, dkeys_cons]
    by_cases h : p.1 == k
    · simp [h, eq_of_beq h]
    · have hne : p.1 ≠ k := fun hc => h (by simp [hc])
      simp [h, ih, Ne.symm hne]

theorem dhas_iff_mem {α : Type} (d : List (String × α)) (k : String) :
    dhas d k = true ↔ k ∈ dkeys d := by
  induction d with
  | nil => simp [dhas, dkeys]
  | cons p rest ih =>
    rw [dkeys_cons]
    by_cases h : p.1 == k
    · simp [dhas, h, eq_of_beq h]
    · have hne : p.1 ≠ k := fun hc => h (by simp [hc])
      simp [dhas, h, Ne.symm hne]
      simpa [dhas] using ih


theorem dget_append_of_none {α : Type} (d e : List (String × α))
    (k : String) (h : dget d k = none) : dget (d ++ e) k = dget e k := by
  induction d with
  | nil => rfl
  | cons p rest ih =>
    rw [dget_cons] at h
    rw [List.cons_append, dget_cons]
    by_cases hpk : (p.1 == k) = true
    · rw [if_pos hpk] at h; exact absurd h (by simp)
    · rw [if_neg hpk] at h
      rw [if_neg hpk]
      exact ih h

theorem dget_append_of_some {α : Type} (d e : List (String × α))
    (k : String) (v : α) (h : dget d k = some v) :
    dget (d ++ e) k = some v := by
  induction d with
  | nil => simp [dget_nil] at h
  | cons p rest ih =>
    rw [dget_cons] at h
    rw [List.cons_append, dget_cons]
    by_cases hpk : (p.1 == k) = true
    · rw [if_pos hpk] at h; rw [if_pos hpk]; exact h
    · rw [if_neg hpk] at h
      rw [if_neg hpk]
      exact ih h

theorem dget_map_replace_self {α : Type} (d : List (String × α))
    (k : String) (v : α) (hb : (d.any fun p => p.1 == k) = true) :
    dget (d.map (fun p => if p.1 == k then (k, v) else p)) k = some v := by
  induction d with
  | nil => simp at hb
  | cons p rest ih =>
    rw [List.map_cons]
    by_cases hpk : (p.1 == k) = true
    · rw [if_pos hpk, dget_cons]
      simp
    · rw [if_neg hpk, dget_cons, if_neg hpk]
      apply ih
      simpa [List.any_cons, hpk] using hb

theorem dget_map_replace_ne {α : Type} (d : List (String × α))
    (k k2 : String) (v : α) (h : k2 ≠ k) :
    dget (d.map (fun p => if p.1 == k2 then (k2, v) else p)) k = dget d k := by
  induction d with
  | nil => rfl
  | cons p rest ih =>
    rw [List.map_cons]
    by_cases hpk2 : (p.1 == k2) = true
    · rw [if_pos hpk2, dget_cons, dget_cons]
      have hp1 : p.1 = k2 := eq_of_beq hpk2
      rw [if_neg (by simp [h]), if_neg (by simp [hp1, h]), ih]
    · rw [if_neg hpk2, dget_cons, dget_cons, ih]

theorem dget_dinsert_self {α : Type} (d : List (String × α)) (k : String)
    (v : α) : dget (dinsert d k v) k = some v := by
  unfold dinsert
  by_cases hb : (d.any fun p => p.1 == k) = true
  · rw [if_pos hb]
    exact dget_map_replace_self d k v hb
  · rw [if_neg hb]
    have hd : dget d k = none := by
      rw [dget_eq_none_iff]
      intro hc
      rw [← dhas_iff_mem] at hc
      exact hb hc
    rw [dget_append_of_none d _ k hd, dget_cons]
    simp

theorem dget_dinsert_ne {α : Type} (d : List (String × α))
    (k k2 : String) (v : α) (h : k2 ≠ k) :
    dget (dinsert d k2 v) k = dget d k := by
  unfold dinsert
  by_cases hb : (d.any fun p => p.1 == k2) = true
  · rw [if_pos hb]
    exact dget_map_replace_ne d k k2 v h
  · rw [if_neg hb]
    cases hd : dget d k with
    | some w => rw [dget_append_of_some d _ k w hd]
    | none =>
      rw [dget_append_of_none d _ k hd, dget_cons]
      rw [if_neg (by simp [h]), dget_nil]

theorem dkeys_map_replace {α : Type} (d : List (String × α)) (k : String)
    (v : α) :
    dkeys (d.map (fun p => if p.1 == k then (k, v) else p)) = dkeys d := by
  induction d with
  | nil => rfl
  | cons p rest ih =>
    rw [List.map_cons, dkeys_cons, dkeys_cons, ih]
    by_cases hpk : (p.1 == k) = true
    · rw [if_pos hpk]
      have : p.1 = k := eq_of_beq hpk
      rw [this]
    · rw [if_neg hpk]

theorem dkeys_append {α : Type} (d e : List (String × α)) :
    dkeys (d ++ e) = dkeys d ++ dkeys e := by
  simp [dkeys]

theorem dkeys_dinsert {α : Type} (d : List (String × α)) (k : String)
    (v : α) :
    dkeys (dinsert d k v) =
      if dhas d k then dkeys d else dkeys d ++ [k] := by
  unfold dinsert dhas
  by_cases hb : (d.any fun p => p.1 == k) = true
  · rw [if_pos hb, if_pos hb, dkeys_map_replace]
  · rw [if_neg hb, if_neg hb, dkeys_append]
    rfl

theorem dkeys_dinsert_nodup {α : Type} (d : List (String × α))
    (k : String) (v : α) (h : (dkeys d).Nodup) :
    (dkeys (dinsert d k v)).Nodup := by
  rw [dkeys_dinsert]
  by_cases hb : dhas d k = true
  · rw [if_pos hb]; exact h
  · rw [if_neg hb]
    have hk : k ∉ dkeys d := fun hc => hb ((dhas_iff_mem d k).mpr hc)
    simp [List.nodup_append, h, hk]

theorem mem_dkeys_dinsert {α : Type} (d : List (String × α)) (k : String)
    (v : α) (k2 : String) (h : k2 ∈ dkeys d ∨ k2 = k) :
    k2 ∈ dkeys (dinsert d k v) := by
  rw [dkeys_dinsert]
  by_cases hb : dhas d k = true
  · rw [if_pos hb]
    rcases h with h | h
    · exact h
    · rw [h]; exact (dhas_iff_mem d k).mp hb
  · rw [if_neg hb]
    rcases h with h | h
    · exact List.mem_append_left _ h
    · rw [h]; exact List.mem_append_right _ (by simp)

theorem dget_dupdate_not_mem {α : Type} (d e : List (String × α))
    (k : String) (h : k ∉ dkeys e) : dget (dupdate d e) k = dget d k := by
  induction e generalizing d with
  | nil => rfl
  | cons p rest ih =>
    rw [dkeys_cons] at h
    have h1 : p.1 ≠ k := by
      intro hc
      exact h (by simp [hc])
    have h2 : k ∉ dkeys rest := fun hc => h (List.mem_cons_of_mem _ hc)
    rw [dupdate_cons, ih _ h2, dget_dinsert_ne d k p.1 p.2 h1]

theorem dget_dupdate_mem {α : Type} (d e : List (String × α))
    (k : String) (v : α) (hnd : (dkeys e).Nodup)
    (h : dget e k = some v) : dget (dupdate d e) k = some v := by
  induction e generalizing d with
  | nil => simp [dget_nil] at h
  | cons p rest ih =>
    rw [dget_cons] at h
    rw [dkeys_cons] at hnd
    rw [dupdate_cons]
    by_cases hpk : (p.1 == k) = true
    · rw [if_pos hpk] at h
      have hv : p.2 = v := Option.some.inj h
      have hk : k ∉ dkeys rest := by
        have := (List.nodup_cons.mp hnd).1
        rwa [eq_of_beq hpk] at this
      rw [dget_dupdate_not_mem _ _ _ hk]
      rw [← hv, ← eq_of_beq hpk]
      exact dget_dinsert_self d p.1 p.2
    · rw [if_neg hpk] at h
      exact ih _ (List.nodup_cons.mp hnd).2 h

theorem mem_dkeys_dupdate_left {α : Type} (d e : List (String × α))
    (k : String) (h : k ∈ dkeys d) : k ∈ dkeys (dupdate d e) := by
  induction e generalizing d with
  | nil => exact h
  | cons p rest ih =>
    rw [dupdate_cons]
    exact ih _ (mem_dkeys_dinsert d p.1 p.2 k (Or.inl h))

theorem mem_dkeys_dupdate_right {α : Type} (d e : List (String × α))
    (k : String) (h : k ∈ dkeys e) : k ∈ dkeys (dupdate d e) := by
  induction e generalizing d with
  | nil => simp [dkeys] at h
  | cons p rest ih =>
    rw [dupdate_cons]
    rw [dkeys_cons] at h
    rcases List.mem_cons.mp h with h | h
    · exact mem_dkeys_dupdate_left _ _ _
        (mem_dkeys_dinsert d p.1 p.2 k (Or.inr h))
    · exact ih _ h

theorem dkeys_dupdate_nodup {α : Type} (d e : List (String × α))
    (h : (dkeys d).Nodup) : (dkeys (dupdate d e)).Nodup := by
  induction e generalizing d with
  | nil => exact h
  | cons p rest ih =>
    rw [dupdate_cons]
    exact ih _ (dkeys_dinsert_nodup d p.1 p.2 h)

theorem dinsert_of_not_mem {α : Type} (d : List (String × α))
    (k : String) (v : α) (h : k ∉ dkeys d) :
    dinsert d k v = d ++ [(k, v)] := by
  have hb : ¬(d.any fun p => p.1 == k) = true :=
    fun hc => h ((dhas_iff_mem d k).mp hc)
  unfold dinsert
  rw [if_neg hb]

/-! ### Build-phase characterization -/

theorem buildPhase_mods (fu : Bool) (t : Int) (mods : List SMod)
    (acc : List (String × Param)) :
    (buildPhase fu t mods acc).1 = mods.map (wlMark fu t) := by
  induction mods generalizing acc with
  | nil => rfl
  | cons m rest ih =>
    rw [List.map_cons]
    by_cases h1 : m.query.isEmpty = true
    · have hw : wlMark fu t m = m := by
        simp [wlMark, h1]
      simp only [buildPhase, if_pos h1]
      rw [ih, hw]
    · by_cases h2 : (fu && m.firstUpdateModule) = true
      · have hw : wlMark fu t m = { m with lastUpdateTime := some t } := by
          simp [wlMark, h1, h2]
        simp only [buildPhase, if_neg h1, if_pos h2]
        rw [ih, hw]
      · have hw : wlMark fu t m = m := by
          simp [wlMark, h2]
        by_cases h3 : eligible m t = true
        · simp only [buildPhase, if_neg h1, if_neg h2, if_pos h3]
          rw [ih, hw]
        · simp only [buildPhase, if_neg h1, if_neg h2, if_neg h3]
          rw [ih, hw]

theorem buildPhase_queries (fu : Bool) (t : Int) (mods : List SMod)
    (acc : List (String × Param)) :
    (buildPhase fu t mods acc).2.1 =
      (mods.filter (chosen fu t)).map SMod.name := by
  induction mods generalizing acc with
  | nil => rfl
  | cons m rest ih =>
    by_cases h1 : m.query.isEmpty = true
    · have hc : chosen fu t m = false := by simp [chosen, h1]
      simp only [buildPhase, if_pos h1, List.filter_cons, hc]
      rw [ih]
      simp
    · by_cases h2 : (fu && m.firstUpdateModule) = true
      · have hc : chosen fu t m = false := by simp [chosen, h2]
        simp only [buildPhase, if_neg h1, if_pos h2, List.filter_cons, hc]
        rw [ih]
        simp
      · by_cases h3 : eligible m t = true
        · have hc : chosen fu t m = true := by simp [chosen, h1, h2, h3]
          simp only [buildPhase, if_neg h1, if_neg h2, if_pos h3,
            List.filter_cons, hc]
          rw [ih]
          simp
        · have hc : chosen fu t m = false := by simp [chosen, h3]
          simp only [buildPhase, if_neg h1, if_neg h2, if_neg h3,
            List.filter_cons, hc]
          rw [ih]
          simp

theorem buildPhase_req (fu : Bool) (t : Int) (mods : List SMod)
    (acc : List (String × Param)) :
    (buildPhase fu t mods acc).2.2 =
      (mods.filter (chosen fu t)).foldl (fun r m => dupdate r m.query)
        acc := by
  induction mods generalizing acc with
  | nil => rfl
  | cons m rest ih =>
    by_cases h1 : m.query.isEmpty = true
    · have hc : chosen fu t m = false := by simp [chosen, h1]
      simp only [buildPhase, if_pos h1, List.filter_cons, hc]
      rw [ih]
      simp
    · by_cases h2 : (fu && m.firstUpdateModule) = true
      · have hc : chosen fu t m = false := by simp [chosen, h2]
        simp only [buildPhase, if_neg h1, if_pos h2, List.filter_cons, hc]
        rw [ih]
        simp
      · by_cases h3 : eligible m t = true
        · have hc : chosen fu t m = true := by simp [chosen, h1, h2, h3]
          simp only [buildPhase, if_neg h1, if_neg h2, if_pos h3,
            List.filter_cons, hc]
          rw [ih]
          simp
        · have hc : chosen fu t m = false := by simp [chosen, h3]
          simp only [buildPhase, if_neg h1, if_neg h2, if_neg h3,
            List.filter_cons, hc]
          rw [ih]
          simp

/-! ### Fallback characterization -/

theorem hmue_closed (retry : String → Param → Option RVal)
    (reqs : List (String × Param)) (acc : List (String × RVal))
    (hnd : (dkeys acc ++ reqs.map Prod.fst).Nodup) :
    handle_modular_update_error retry reqs acc =
      acc ++ reqs.map (fun rp => (rp.1, fbVal retry rp.1 rp.2)) := by
  induction reqs generalizing acc with
  | nil => simp [handle_modular_update_error]
  | cons rp rest ih =>
    obtain ⟨meth, params⟩ := rp
    have hk : meth ∉ dkeys acc := by
      intro hc
      have hdisj := (List.nodup_append.mp hnd).2.2
      exact hdisj hc (by simp)
    simp only [handle_modular_update_error]
    rw [dinsert_of_not_mem _ _ _ hk]
    have hnd2 : (dkeys (acc ++ [(meth, fbVal retry meth params)]) ++
        rest.map Prod.fst).Nodup := by
      rw [dkeys_append, List.append_assoc]
      simpa [dkeys] using hnd
    rw [ih _ hnd2]
    simp

theorem dget_map_entry {α β : Type} (d : List (String × α))
    (f : String → α → β) (k : String) (p : α) (h : dget d k = some p) :
    dget (d.map (fun rp => (rp.1, f rp.1 rp.2))) k = some (f k p) := by
  induction d with
  | nil => simp [dget_nil] at h
  | cons q rest ih =>
    rw [dget_cons] at h
    rw [List.map_cons, dget_cons]
    dsimp only
    by_cases hq : (q.1 == k) = true
    · rw [if_pos hq] at h
      rw [if_pos hq]
      rw [eq_of_beq hq, Option.some.inj h]
    · rw [if_neg hq] at h
      rw [if_neg hq]
      exact ih h

theorem dkeys_map_entry {α β : Type} (d : List (String × α))
    (f : String → α → β) :
    dkeys (d.map (fun rp => (rp.1, f rp.1 rp.2))) = dkeys d := by
  induction d with
  | nil => rfl
  | cons q rest ih =>
    rw [List.map_cons, dkeys_cons, dkeys_cons, ih]

theorem cycleReq_keys_nodup (st : DevState) (fu : Bool) (t : Int) :
    (dkeys (cycleReq st fu t)).Nodup := by
  unfold cycleReq
  rw [buildPhase_req]
  have : ∀ (l : List SMod) (acc : List (String × Param)),
      (dkeys acc).Nodup →
      (dkeys (l.foldl (fun r m => dupdate r m.query) acc)).Nodup := by
    intro l
    induction l with
    | nil => intro acc h; exact h
    | cons m rest ih =>
      intro acc h
      exact ih _ (dkeys_dupdate_nodup _ _ h)
  exact this _ _ (by simp [dkeys])

/-! ### Characterization of one modular update cycle -/

theorem mu_lastUpdate (st : DevState) (fu : Bool) (t : Int)
    (batch : List (String × Param) → Option (List (String × RVal)))
    (retry : String → Param → Option RVal) :
    (modular_update st fu t batch retry).1.lastUpdate =
      dupdate st.lastUpdate (cycleResp st fu t batch retry) := by
  simp only [modular_update]
  cases htry : try_get_response
      (if fu then dupdate st.lastUpdate (cycleResp st fu t batch retry)
       else cycleResp st fu t batch retry) "get_device_info" none with
  | error e => rfl
  | ok vi => rfl

theorem mu_preserves (st : DevState) (fu : Bool) (t : Int)
    (batch : List (String × Param) → Option (List (String × RVal)))
    (retry : String → Param → Option RVal) :
    (modular_update st fu t batch retry).1.children = st.children ∧
    (modular_update st fu t batch retry).1.features = st.features ∧
    (modular_update st fu t batch retry).1.lastUpdateTime =
      st.lastUpdateTime ∧
    (modular_update st fu t batch retry).1.credentials = st.credentials ∧
    (modular_update st fu t batch retry).1.credentialsHash =
      st.credentialsHash ∧
    (modular_update st fu t batch retry).1.deviceTypeCache =
      st.deviceTypeCache ∧
    (modular_update st fu t batch retry).1.components = st.components := by
  simp only [modular_update]
  cases htry : try_get_response
      (if fu then dupdate st.lastUpdate (cycleResp st fu t batch retry)
       else cycleResp st fu t batch retry) "get_device_info" none with
  | error e => exact ⟨rfl, rfl, rfl, rfl, rfl, rfl, rfl⟩
  | ok vi => exact ⟨rfl, rfl, rfl, rfl, rfl, rfl, rfl⟩

theorem mu_modules_ok (st : DevState) (fu : Bool) (t : Int)
    (batch : List (String × Param) → Option (List (String × RVal)))
    (retry : String → Param → Option RVal)
    (resp0 : List (String × RVal))
    (h : (modular_update st fu t batch retry).2 = Except.ok resp0) :
    (modular_update st fu t batch retry).1.modules =
      ((st.modules.map (wlMark fu t)).filter
          (fun m => handle_module_post_update_hook m)).map
        (fun m =>
          if ((st.modules.filter (chosen fu t)).map SMod.name).contains
              m.name then { m with lastUpdateTime := some t } else m) := by
  simp only [modular_update] at h ⊢
  cases htry : try_get_response
      (if fu then dupdate st.lastUpdate (cycleResp st fu t batch retry)
       else cycleResp st fu t batch retry) "get_device_info" none with
  | error e =>
    rw [htry] at h
    simp at h
  | ok vi =>
    dsimp only
    rw [buildPhase_mods, buildPhase_queries]

theorem mu_error_state (st : DevState) (fu : Bool) (t : Int)
    (batch : List (String × Param) → Option (List (String × RVal)))
    (retry : String → Param → Option RVal)
    (htry : try_get_response
      (if fu then dupdate st.lastUpdate (cycleResp st fu t batch retry)
       else cycleResp st fu t batch retry) "get_device_info" none =
      Except.error KErr.kasaException) :
    modular_update st fu t batch retry =
      ({ st with
          modules := st.modules.map (wlMark fu t),
          lastUpdate :=
            dupdate st.lastUpdate (cycleResp st fu t batch retry) },
       Except.error KErr.kasaException) := by
  simp only [modular_update]
  rw [htry]
  simp only
  rw [buildPhase_mods]

theorem wlMark_name (fu : Bool) (t : Int) (m : SMod) :
    (wlMark fu t m).name = m.name := by
  unfold wlMark
  split <;> rfl

theorem wlMark_hookOk (fu : Bool) (t : Int) (m : SMod) :
    (wlMark fu t m).hookOk = m.hookOk := by
  unfold wlMark
  split <;> rfl

theorem wlMark_features (fu : Bool) (t : Int) (m : SMod) :
    (wlMark fu t m).features = m.features := by
  unfold wlMark
  split <;> rfl

theorem cycleStamp_name (fu : Bool) (t : Int) (m : SMod) :
    (cycleStamp fu t m).name = m.name := by
  unfold cycleStamp
  split
  · rfl
  · split <;> rfl

theorem cycleStamp_hookOk (fu : Bool) (t : Int) (m : SMod) :
    (cycleStamp fu t m).hookOk = m.hookOk := by
  unfold cycleStamp
  split
  · rfl
  · split <;> rfl

theorem cycleStamp_features (fu : Bool) (t : Int) (m : SMod) :
    (cycleStamp fu t m).features = m.features := by
  unfold cycleStamp
  split
  · rfl
  · split <;> rfl

theorem filter_hook_map (f : SMod → SMod)
    (hf : ∀ m, (f m).hookOk = m.hookOk) (l : List SMod) :
    (l.map f).filter (fun m => handle_module_post_update_hook m) =
      (l.filter (fun m => handle_module_post_update_hook m)).map f := by
  induction l with
  | nil => rfl
  | cons m rest ih =>
    unfold handle_module_post_update_hook at ih ⊢
    rw [List.map_cons, List.filter_cons, List.filter_cons, hf m]
    by_cases h : m.hookOk = true <;> simp [h, ih]

theorem mu_modules_ok_nodup (st : DevState) (fu : Bool) (t : Int)
    (batch : List (String × Param) → Option (List (String × RVal)))
    (retry : String → Param → Option RVal)
    (resp0 : List (String × RVal))
    (hnd : (st.modules.map SMod.name).Nodup)
    (h : (modular_update st fu t batch retry).2 = Except.ok resp0) :
    (modular_update st fu t batch retry).1.modules =
      (st.modules.filter (fun m => handle_module_post_update_hook m)).map
        (cycleStamp fu t) := by
  rw [mu_modules_ok st fu t batch retry resp0 h]
  rw [filter_hook_map (wlMark fu t) (wlMark_hookOk fu t) st.modules]
  rw [List.map_map]
  apply List.map_congr_left
  intro m hm
  have hm2 : m ∈ st.modules := List.mem_of_mem_filter hm
  have hname : (wlMark fu t m).name = m.name := wlMark_name fu t m
  have hcq : ((st.modules.filter (chosen fu t)).map SMod.name).contains
      (wlMark fu t m).name = chosen fu t m := by
    by_cases hch : chosen fu t m = true
    · rw [hch, hname]
      have hmem : m.name ∈ (st.modules.filter (chosen fu t)).map SMod.name :=
        List.mem_map.mpr ⟨m, List.mem_filter.mpr ⟨hm2, hch⟩, rfl⟩
      simpa using hmem
    · have hch0 : chosen fu t m = false := by
        cases hcb : chosen fu t m
        · rfl
        · exact absurd hcb hch
      rw [hch0, hname]
      cases hcc : ((st.modules.filter (chosen fu t)).map
          SMod.name).contains m.name
      · rfl
      · exfalso
        have hmem : m.name ∈ (st.modules.filter (chosen fu t)).map
            SMod.name := by simpa using hcc
        rcases List.mem_map.mp hmem with ⟨m3, hm3, he⟩
        have heq : m3 = m :=
          List.inj_on_of_nodup_map hnd (List.mem_of_mem_filter hm3) hm2 he
        rw [heq] at hm3
        exact hch (List.mem_filter.mp hm3).2
  simp only [Function.comp]
  rw [hcq]
  by_cases hw : (!m.query.isEmpty && (fu && m.firstUpdateModule)) = true
  · have h2 : (fu && m.firstUpdateModule) = true := by
      have h3 := hw
      rw [Bool.and_eq_true] at h3
      exact h3.2
    have hch0 : chosen fu t m = false := by simp [chosen, h2]
    simp [hch0, wlMark, cycleStamp, hw]
  · by_cases hch : chosen fu t m = true <;>
      simp [wlMark, cycleStamp, hw, hch]

/-! ### Claim theorems -/

theorem dkeys_eq_map_fst {α : Type} (d : List (String × α)) :
    dkeys d = d.map Prod.fst := rfl

/-- C1: on an update cycle whose batched request raises a transport-level
failure (the batch oracle returns `none`), the per-key fallback response
merged into `_last_update` by `_modular_update` contains every key of the
batch request, each mapped to the value of its successful individual
retry, or to the `INTERNAL_QUERY_ERROR` sentinel when the retry failed
too; no key of the batch request is dropped. -/
theorem c1_fallback_no_key_dropped (st : DevState) (fu : Bool) (t : Int)
    (retry : String → Param → Option RVal) :
    (dkeys (cycleResp st fu t (fun _ => none) retry) =
      dkeys (cycleReq st fu t)) ∧
    (∀ k p, dget (cycleReq st fu t) k = some p →
      dget ((modular_update st fu t (fun _ => none) retry).1.lastUpdate)
        k = some (fbVal retry k p)) := by
  have hresp : cycleResp st fu t (fun _ => none) retry =
      handle_modular_update_error retry (cycleReq st fu t) [] := rfl
  have hnd0 : (dkeys (cycleReq st fu t)).Nodup := cycleReq_keys_nodup st fu t
  have hndm : (dkeys ([] : List (String × RVal)) ++
      (cycleReq st fu t).map Prod.fst).Nodup := by
    rw [dkeys_nil, List.nil_append, ← dkeys_eq_map_fst]
    exact hnd0
  have hclosed : cycleResp st fu t (fun _ => none) retry =
      (cycleReq st fu t).map (fun rp => (rp.1, fbVal retry rp.1 rp.2)) := by
    rw [hresp, hmue_closed retry _ _ hndm]
    simp
  constructor
  · rw [hclosed]
    exact dkeys_map_entry _ _
  · intro k p hk
    rw [mu_lastUpdate]
    have hv : dget (cycleResp st fu t (fun _ => none) retry) k =
        some (fbVal retry k p) := by
      rw [hclosed]
      exact dget_map_entry _ _ k p hk
    have hndr : (dkeys (cycleResp st fu t (fun _ => none) retry)).Nodup := by
      rw [hclosed, dkeys_map_entry]
      exact hnd0
    exact dget_dupdate_mem _ _ k _ hndr hv

/-- Witness for C1 at a concrete one-module device whose individual retry
also fails: the merged response carries the sentinel. -/
theorem c1_fallback_witness :
    dget ((modular_update
      (DevState.mk true false [] []
        [SMod.mk "DeviceModule" [("get_device_info", none)] 0 none false
          true []]
        [] [] (some 1) [] DeviceType.Plug false)
      false 5 (fun _ => none) (fun _ _ => none)).1.lastUpdate)
      "get_device_info" =
    some (RVal.errcode INTERNAL_QUERY_ERROR) :=
  (c1_fallback_no_key_dropped _ false 5 (fun _ _ => none)).2
    "get_device_info" none rfl

/-- C5 counterexample: the claim asserts that every capability set with
"child_device" and a tag containing "PLUG" classifies as Strip, but a tag
containing both "HUB" and "PLUG" hits the HUB check first and classifies
as Hub. -/
theorem c5_counterexample :
    strContains "HUBPLUG" "PLUG" = true ∧
    "child_device" ∈ ["child_device"] ∧
    get_device_type_from_components ["child_device"] "HUBPLUG" ≠
      DeviceType.Strip ∧
    get_device_type_from_components ["child_device"] "HUBPLUG" =
      DeviceType.Hub := by
  decide

/-- C5 (amended): the classifier is a pure function applying the fixed
first-match order of spec section 4.1, and for every tag containing
"PLUG" but not "HUB", a capability set with "child_device" yields Strip
and one without yields Plug. -/
theorem c5_classifier_order (components : List String) (tag : String) :
    get_device_type_from_components components tag =
      classifySpec components tag ∧
    (strContains tag "PLUG" = true → strContains tag "HUB" = false →
      (("child_device" ∈ components →
        get_device_type_from_components components tag =
          DeviceType.Strip) ∧
       ("child_device" ∉ components →
        get_device_type_from_components components tag =
          DeviceType.Plug))) := by
  refine ⟨rfl, ?_⟩
  intro hp hh
  constructor
  · intro hc
    simp [get_device_type_from_components, hh, hp, hc]
  · intro hc
    simp [get_device_type_from_components, hh, hp, hc]

/-- Witness for C5 at a realistic tag. -/
theorem c5_classifier_witness :
    get_device_type_from_components ["child_device"] "SMART.TAPOPLUG" =
      DeviceType.Strip ∧
    get_device_type_from_components [] "SMART.TAPOPLUG" =
      DeviceType.Plug :=
  ⟨((c5_classifier_order ["child_device"] "SMART.TAPOPLUG").2
      (by decide) (by decide)).1 (by decide),
   ((c5_classifier_order [] "SMART.TAPOPLUG").2
      (by decide) (by decide)).2 (by decide)⟩

/-- C9: `on_since` returns none when the on/off field is falsy or the
on-duration field is absent, and otherwise returns the device time minus
the reported on-duration in seconds. -/
theorem c9_on_since (info : List (String × JVal)) (t : Int) :
    ((otruthy (dget info "device_on") = false ∨
        dget info "on_time" = none) →
      on_since info t = Except.ok none) ∧
    (∀ d : Int, otruthy (dget info "device_on") = true →
      dget info "on_time" = some (JVal.n d) →
      on_since info t = Except.ok (some (t - d))) := by
  constructor
  · rintro (h | h)
    · unfold on_since
      rw [if_pos h]
    · unfold on_since
      by_cases hd : otruthy (dget info "device_on") = false
      · rw [if_pos hd]
      · rw [if_neg hd, h]
  · intro d hon htime
    unfold on_since
    rw [if_neg (by simp [hon]), htime]
    rfl

/-- Witness for C9 on concrete info records. -/
theorem c9_on_since_witness :
    on_since [("device_on", JVal.b false)] 7 = Except.ok none ∧
    on_since [("device_on", JVal.b true), ("on_time", JVal.n 5)] 7 =
      Except.ok (some 2) :=
  ⟨(c9_on_since [("device_on", JVal.b false)] 7).1 (Or.inl rfl),
   (c9_on_since [("device_on", JVal.b true), ("on_time", JVal.n 5)] 7).2
     5 rfl rfl⟩

/-- C10: `unpair` issues exactly one removal request scoped to exactly
the given child id, `add_devices` issues exactly one add request, and
neither touches the in-memory child map (only re-negotiation, flagged by
`renegotiationPending`, rebuilds it). -/
theorem c10_unpair_scoped_frame (st : DevState) (device_id : String)
    (resp resp2 : List (String × RVal))
    (devices : List (String × JVal)) :
    unpair st device_id resp =
      ({ st with renegotiationPending := true },
       [("remove_child_device_list",
         [("child_device_list",
           JVal.arr [JVal.obj [("device_id", JVal.s device_id)]])])],
       resp) ∧
    (unpair st device_id resp).1.children = st.children ∧
    (add_devices st devices resp2).1.children = st.children ∧
    (add_devices st devices resp2).2.1 =
      [("add_child_device_list", devices)] :=
  ⟨rfl, rfl, rfl, rfl⟩

theorem lutFalsy_iff (o : Option Int) :
    lutFalsy o = true ↔ o = none ∨ o = some 0 := by
  cases o with
  | none => simp [lutFalsy]
  | some x => simp [lutFalsy]

theorem wlMark_false (t : Int) (m : SMod) : wlMark false t m = m := by
  simp [wlMark]

theorem isEmpty_false_of_ne_nil {α : Type} (l : List α) (h : l ≠ []) :
    l.isEmpty = false := by
  cases l with
  | nil => exact absurd rfl h
  | cons a as => rfl

theorem mem_dkeys_foldl_left (l : List SMod) (acc : List (String × Param))
    (k : String) (h : k ∈ dkeys acc) :
    k ∈ dkeys (l.foldl (fun r m2 => dupdate r m2.query) acc) := by
  induction l generalizing acc with
  | nil => exact h
  | cons m2 rest ih =>
    exact ih _ (mem_dkeys_dupdate_left _ _ _ h)

theorem mem_dkeys_foldl (l : List SMod) (acc : List (String × Param))
    (m : SMod) (hm : m ∈ l) (k : String) (hk : k ∈ dkeys m.query) :
    k ∈ dkeys (l.foldl (fun r m2 => dupdate r m2.query) acc) := by
  induction l generalizing acc with
  | nil => cases hm
  | cons m2 rest ih =>
    rcases List.mem_cons.mp hm with h | h
    · subst h
      exact mem_dkeys_foldl_left rest _ k
        (mem_dkeys_dupdate_right _ _ _ hk)
    · exact ih _ h

/-- C3 counterexample: on the first cycle a whitelisted module
(`FIRST_UPDATE_MODULES`) with a truthy query is not among the issued
queries, yet its last-update time is set to the cycle's now, falsifying
"only the modules actually included in the issued queries have their
last-update time set to that now". -/
theorem c3_counterexample :
    ((buildPhase true 5
        [SMod.mk "DeviceModule" [("get_device_info", none)] 0 none true
          true []] []).2.1 = []) ∧
    ((modular_update
        (DevState.mk true false [] []
          [SMod.mk "DeviceModule" [("get_device_info", none)] 0 none true
            true []]
          [] [] none [] DeviceType.Plug false)
        true 5 (fun _ => some [("get_device_info", RVal.payload [])])
        (fun _ _ => none)).1.modules.map SMod.lastUpdateTime =
      [some 5]) :=
  ⟨rfl, rfl⟩

/-- C3 (amended): in every update cycle a single now `t` is used
uniformly; a module reaches the issued queries only if its interval is
zero, its last-update time is falsy (nil or 0), or at least the interval
has elapsed since it; and after a cycle that reaches the hook phase, the
surviving modules are exactly the original modules filtered by hook
success, with `cycleStamp` setting the last-update time to `t` precisely
for the queried modules and, on the first cycle only, for whitelisted
modules with a truthy query, while every other module keeps its previous
last-update time. -/
theorem c3_single_now_intervals (st : DevState) (fu : Bool) (t : Int)
    (batch : List (String × Param) → Option (List (String × RVal)))
    (retry : String → Param → Option RVal)
    (resp0 : List (String × RVal))
    (hnd : (st.modules.map SMod.name).Nodup)
    (h : (modular_update st fu t batch retry).2 = Except.ok resp0) :
    (∀ m ∈ st.modules,
      m.name ∈ (buildPhase fu t st.modules []).2.1 →
        (m.interval = 0 ∨ m.lastUpdateTime = none ∨
          m.lastUpdateTime = some 0 ∨
          (m.interval : Int) ≤ t - m.lastUpdateTime.getD 0)) ∧
    (modular_update st fu t batch retry).1.modules =
      (st.modules.filter (fun m => handle_module_post_update_hook m)).map
        (cycleStamp fu t) := by
  constructor
  · intro m hm hq
    rw [buildPhase_queries] at hq
    rcases List.mem_map.mp hq with ⟨m2, hm2, he2⟩
    have heq : m2 = m :=
      List.inj_on_of_nodup_map hnd (List.mem_of_mem_filter hm2) hm he2
    have hch : chosen fu t m = true := by
      rw [← heq]
      exact (List.mem_filter.mp hm2).2
    unfold chosen at hch
    rw [Bool.and_eq_true] at hch
    have helig := hch.2
    unfold eligible at helig
    rw [Bool.or_eq_true, Bool.or_eq_true] at helig
    rcases helig with (h1 | h2) | h3
    · exact Or.inl (by simpa using h1)
    · rcases (lutFalsy_iff _).mp h2 with hx | hx
      · exact Or.inr (Or.inl hx)
      · exact Or.inr (Or.inr (Or.inl hx))
    · exact Or.inr (Or.inr (Or.inr (by simpa using h3)))
  · exact mu_modules_ok_nodup st fu t batch retry resp0 hnd h

/-- Witness for C3: an always-eligible module is stamped with the cycle
time while a module excluded by its interval keeps its previous
last-update time. -/
theorem c3_single_now_witness :
    (modular_update
      (DevState.mk true false [] []
        [SMod.mk "A" [("qa", none)] 0 none false true [],
         SMod.mk "B" [("qb", none)] 10 (some 100) false true []]
        [] [] (some 1) [] DeviceType.Plug false)
      false 5
      (fun _ => some [("get_device_info", RVal.payload [])])
      (fun _ _ => none)).1.modules.map SMod.lastUpdateTime =
    [some 5, some 100] := by
  have h := c3_single_now_intervals
    (DevState.mk true false [] []
      [SMod.mk "A" [("qa", none)] 0 none false true [],
       SMod.mk "B" [("qb", none)] 10 (some 100) false true []]
      [] [] (some 1) [] DeviceType.Plug false)
    false 5
    (fun _ => some [("get_device_info", RVal.payload [])])
    (fun _ _ => none)
    [("get_device_info", RVal.payload [])] (by decide) rfl
  rw [h.2]
  rfl

/-- C4: on the very first update cycle every whitelisted module
(`FIRST_UPDATE_MODULES`, truthy query) is excluded from the issued
queries yet carries the cycle's now as its last-update time, every other
eligible module with a truthy query is appended to the batch request, and
only on the first cycle: with `fu = false` the whitelist branch never
fires and inclusion is governed by eligibility alone. -/
theorem c4_first_update_whitelist (st : DevState) (t : Int)
    (hnd : (st.modules.map SMod.name).Nodup) :
    (∀ m ∈ st.modules, m.firstUpdateModule = true → m.query ≠ [] →
      (m.name ∉ (buildPhase true t st.modules []).2.1 ∧
       ∃ m2, m2 ∈ (buildPhase true t st.modules []).1 ∧
         m2.name = m.name ∧ m2.lastUpdateTime = some t)) ∧
    (∀ m ∈ st.modules, m.firstUpdateModule = false → m.query ≠ [] →
      eligible m t = true →
      (m.name ∈ (buildPhase true t st.modules []).2.1 ∧
       ∀ k, k ∈ dkeys m.query →
         k ∈ dkeys (buildPhase true t st.modules []).2.2)) ∧
    ((buildPhase false t st.modules []).1 = st.modules) ∧
    (∀ m ∈ st.modules, m.query ≠ [] →
      (m.name ∈ (buildPhase false t st.modules []).2.1 ↔
        eligible m t = true)) := by
  refine ⟨?_, ?_, ?_, ?_⟩
  · intro m hm hwl hq
    have he : m.query.isEmpty = false := isEmpty_false_of_ne_nil _ hq
    constructor
    · intro hmem
      rw [buildPhase_queries] at hmem
      rcases List.mem_map.mp hmem with ⟨m2, hm2, he2⟩
      have heq : m2 = m :=
        List.inj_on_of_nodup_map hnd (List.mem_of_mem_filter hm2) hm he2
      have hch := (List.mem_filter.mp hm2).2
      rw [heq] at hch
      unfold chosen at hch
      rw [Bool.and_eq_true] at hch
      have h1 := hch.1
      rw [Bool.and_eq_true] at h1
      have h2 := h1.2
      rw [hwl] at h2
      simp at h2
    · refine ⟨wlMark true t m, ?_, wlMark_name true t m, ?_⟩
      · rw [buildPhase_mods]
        exact List.mem_map.mpr ⟨m, hm, rfl⟩
      · unfold wlMark
        rw [if_pos (by simp [he, hwl])]
  · intro m hm hwl hq helig
    have he : m.query.isEmpty = false := isEmpty_false_of_ne_nil _ hq
    have hch : chosen true t m = true := by
      simp [chosen, he, hwl, helig]
    constructor
    · rw [buildPhase_queries]
      exact List.mem_map.mpr ⟨m, List.mem_filter.mpr ⟨hm, hch⟩, rfl⟩
    · intro k hk
      rw [buildPhase_req]
      exact mem_dkeys_foldl _ _ m (List.mem_filter.mpr ⟨hm, hch⟩) k hk
  · rw [buildPhase_mods]
    have h2 : ∀ m ∈ st.modules, wlMark false t m = id m :=
      fun m _ => wlMark_false t m
    rw [List.map_congr_left h2, List.map_id]
  · intro m hm hq
    have he : m.query.isEmpty = false := isEmpty_false_of_ne_nil _ hq
    have hch_iff : chosen false t m = eligible m t := by
      simp [chosen, he]
    rw [buildPhase_queries]
    constructor
    · intro hmem
      rcases List.mem_map.mp hmem with ⟨m2, hm2, he2⟩
      have heq : m2 = m :=
        List.inj_on_of_nodup_map hnd (List.mem_of_mem_filter hm2) hm he2
      have hch := (List.mem_filter.mp hm2).2
      rw [heq] at hch
      rw [← hch_iff]
      exact hch
    · intro helig
      exact List.mem_map.mpr
        ⟨m, List.mem_filter.mpr ⟨hm, by rw [hch_iff]; exact helig⟩, rfl⟩

/-- Witness for C4: a whitelisted module is skipped but stamped, a normal
eligible module's key reaches the request, and a non-first cycle leaves
the modules untouched. -/
theorem c4_first_update_witness :
    ("DeviceModule" ∉ (buildPhase true 5
      [SMod.mk "DeviceModule" [("get_device_info", none)] 0 none true
        true [],
       SMod.mk "Energy" [("get_energy_usage", none)] 0 none false true
        []] []).2.1) ∧
    ("get_energy_usage" ∈ dkeys (buildPhase true 5
      [SMod.mk "DeviceModule" [("get_device_info", none)] 0 none true
        true [],
       SMod.mk "Energy" [("get_energy_usage", none)] 0 none false true
        []] []).2.2) ∧
    ((buildPhase false 5
      [SMod.mk "DeviceModule" [("get_device_info", none)] 0 none true
        true [],
       SMod.mk "Energy" [("get_energy_usage", none)] 0 none false true
        []] []).1 =
      [SMod.mk "DeviceModule" [("get_device_info", none)] 0 none true
        true [],
       SMod.mk "Energy" [("get_energy_usage", none)] 0 none false true
        []]) := by
  have h := c4_first_update_whitelist
    (DevState.mk true false [] []
      [SMod.mk "DeviceModule" [("get_device_info", none)] 0 none true
        true [],
       SMod.mk "Energy" [("get_energy_usage", none)] 0 none false true
        []]
      [] [] none [] DeviceType.Plug false) 5 (by decide)
  refine ⟨(h.1 _ (List.mem_cons_self _ _) rfl (List.cons_ne_nil _ _)).1,
    ?_, h.2.2.1⟩
  exact (h.2.1 _ (List.mem_cons_of_mem _ (List.mem_cons_self _ _)) rfl
    (List.cons_ne_nil _ _) rfl).2 "get_energy_usage"
    (List.mem_cons_self _ _)

/-- C8: calling `update` on a device whose credentials are entirely
absent fails immediately with an authentication error; the state comes
back unchanged and the result is the same for every oracle, so no network
round trip happens and no device or module state is modified. -/
theorem c8_auth_precondition (st : DevState) (uc : Bool) (now : Int)
    (firstPhase : DevState → DevState × Except KErr Unit)
    (batch : List (String × Param) → Option (List (String × RVal)))
    (retry : String → Param → Option RVal)
    (childUpd : ChildState → Except KErr ChildState)
    (h1 : st.credentials = false) (h2 : st.credentialsHash = false) :
    update st uc now firstPhase batch retry childUpd =
      (st, Except.error KErr.authenticationError) := by
  simp [update, h1, h2]

/-- Witness for C8 at a concrete credential-less device. -/
theorem c8_auth_witness :
    update
      (DevState.mk false false [] [] [] [] [] none [] DeviceType.Unknown
        false)
      true 0 (fun s => (s, Except.ok ())) (fun _ => none)
      (fun _ _ => none) (fun c => Except.ok c) =
      (DevState.mk false false [] [] [] [] [] none [] DeviceType.Unknown
        false,
       Except.error KErr.authenticationError) :=
  c8_auth_precondition _ true 0 _ _ _ _ rfl rfl

/-- C6: on a non-first cycle whose response maps `get_device_info` to a
sentinel error code or lacks the key, `update` raises `KasaException`
while the last-known-response map has already been merged with the cycle
response (no rollback); the module list is untouched, so no hook ran, no
module was evicted and no module timestamp was refreshed, and info and
features are unchanged. -/
theorem c6_bad_device_info (st : DevState) (uc : Bool) (now t0 : Int)
    (firstPhase : DevState → DevState × Except KErr Unit)
    (batch : List (String × Param) → Option (List (String × RVal)))
    (retry : String → Param → Option RVal)
    (childUpd : ChildState → Except KErr ChildState)
    (hcred : (st.credentials || st.credentialsHash) = true)
    (hlut : st.lastUpdateTime = some t0)
    (hbad : dget (cycleResp { st with lastUpdateTime := some now } false
        now batch retry) "get_device_info" = none ∨
      ∃ c, dget (cycleResp { st with lastUpdateTime := some now } false
        now batch retry) "get_device_info" = some (RVal.errcode c)) :
    update st uc now firstPhase batch retry childUpd =
      ({ st with
          lastUpdateTime := some now,
          modules := st.modules.map (wlMark false now),
          lastUpdate := dupdate st.lastUpdate
            (cycleResp { st with lastUpdateTime := some now } false now
              batch retry) },
       Except.error KErr.kasaException) ∧
    st.modules.map (wlMark false now) = st.modules := by
  have hcond : (!st.credentials && !st.credentialsHash) = false := by
    cases hc1 : st.credentials <;> cases hc2 : st.credentialsHash <;>
      simp [hc1, hc2] at hcred ⊢
  have htry : try_get_response
      (cycleResp { st with lastUpdateTime := some now } false now batch
        retry) "get_device_info" none =
      Except.error KErr.kasaException := by
    unfold try_get_response
    rcases hbad with hb | ⟨c, hb⟩
    · rw [hb]
    · rw [hb]
  have hmu := mu_error_state { st with lastUpdateTime := some now } false
    now batch retry htry
  have hid : st.modules.map (wlMark false now) = st.modules := by
    have h2 : ∀ m ∈ st.modules, wlMark false now m = id m :=
      fun m _ => wlMark_false now m
    rw [List.map_congr_left h2, List.map_id]
  refine ⟨?_, hid⟩
  unfold update
  rw [hcond]
  simp only [Bool.false_eq_true, if_false, hlut, Option.isNone_some]
  rw [hmu]

/-- Witness for C6: an empty cycle response lacks `get_device_info`, so
the non-first update raises and the state keeps its merged response. -/
theorem c6_bad_device_info_witness :
    update
      (DevState.mk true false [] [] [] [] [] (some 1) []
        DeviceType.Plug false)
      true 5 (fun s => (s, Except.ok ())) (fun _ => some [])
      (fun _ _ => none) (fun c => Except.ok c) =
      (DevState.mk true false [] [] [] [] [] (some 5) []
        DeviceType.Plug false,
       Except.error KErr.kasaException) :=
  (c6_bad_device_info
    (DevState.mk true false [] [] [] [] [] (some 1) []
      DeviceType.Plug false)
    true 5 1 (fun s => (s, Except.ok ())) (fun _ => some [])
    (fun _ _ => none) (fun c => Except.ok c) rfl rfl (Or.inl rfl)).1

/-! ### Pairing scan loop -/

theorem pairScanFrom_found (poll : Nat → List (String × JVal)) :
    ∀ (fuel i idx : Nat), i < fuel →
    (∀ j, j < i → ∃ l, dget (poll (idx + j)) "child_device_list" = some l ∧
      jtruthy l = false) →
    ∀ li, dget (poll (idx + i)) "child_device_list" = some li →
    jtruthy li = true →
    pairScanFrom poll idx fuel = Except.ok (some (poll (idx + i))) := by
  intro fuel
  induction fuel with
  | zero => intro i idx h; exact absurd h (Nat.not_lt_zero i)
  | succ f ih =>
    intro i idx hlt hprev li hget htr
    cases i with
    | zero =>
      rw [Nat.add_zero] at hget
      simp only [pairScanFrom]
      rw [hget]
      dsimp only
      rw [if_pos htr, Nat.add_zero]
    | succ i0 =>
      obtain ⟨l0, hl0, hl0f⟩ := hprev 0 (Nat.succ_pos i0)
      rw [Nat.add_zero] at hl0
      simp only [pairScanFrom]
      rw [hl0]
      dsimp only
      rw [if_neg (by simp [hl0f])]
      have hg2 : dget (poll ((idx + 1) + i0)) "child_device_list" =
          some li := by
        rw [show (idx + 1) + i0 = idx + (i0 + 1) by omega]
        exact hget
      have hp2 : ∀ j, j < i0 →
          ∃ l, dget (poll ((idx + 1) + j)) "child_device_list" = some l ∧
            jtruthy l = false := by
        intro j hj
        rw [show (idx + 1) + j = idx + (j + 1) by omega]
        exact hprev (j + 1) (by omega)
      have := ih i0 (idx + 1) (Nat.lt_of_succ_lt_succ hlt) hp2 li hg2 htr
      rw [this]
      rw [show (idx + 1) + i0 = idx + (i0 + 1) by omega]

theorem pairScanFrom_none (poll : Nat → List (String × JVal)) :
    ∀ (fuel idx : Nat),
    (∀ j, j < fuel →
      ∃ l, dget (poll (idx + j)) "child_device_list" = some l ∧
        jtruthy l = false) →
    pairScanFrom poll idx fuel = Except.ok none := by
  intro fuel
  induction fuel with
  | zero => intro idx _; rfl
  | succ f ih =>
    intro idx h
    obtain ⟨l0, hl0, hl0f⟩ := h 0 (Nat.succ_pos f)
    rw [Nat.add_zero] at hl0
    simp only [pairScanFrom]
    rw [hl0]
    dsimp only
    rw [if_neg (by simp [hl0f])]
    apply ih
    intro j hj
    rw [show (idx + 1) + j = idx + (j + 1) by omega]
    exact h (j + 1) (by omega)

/-- C7: a pairing scan that finds a non-empty discovered-device list at
the first truthy poll before the deadline stops there and submits exactly
one add-child-devices request carrying that discovered response,
returning its result; a scan whose every poll up to the deadline reports
an empty list returns no result (a soft outcome, `Except.ok none`) and
issues no add request. -/
theorem c7_pair (st : DevState) (poll : Nat → List (String × JVal))
    (maxPolls : Nat) (addResp : List (String × RVal)) :
    (∀ i, i < maxPolls →
      (∀ j, j < i → ∃ l, dget (poll j) "child_device_list" = some l ∧
        jtruthy l = false) →
      ∀ li, dget (poll i) "child_device_list" = some li →
        jtruthy li = true →
      pair st poll maxPolls addResp =
        ({ st with renegotiationPending := true },
         [("begin_scanning_child_device", []),
          ("add_child_device_list", poll i)],
         Except.ok (some addResp))) ∧
    ((∀ j, j < maxPolls →
        ∃ l, dget (poll j) "child_device_list" = some l ∧
          jtruthy l = false) →
      pair st poll maxPolls addResp =
        (st, [("begin_scanning_child_device", [])], Except.ok none)) := by
  constructor
  · intro i hi hprev li hget htr
    have hscan := pairScanFrom_found poll maxPolls i 0 hi
      (fun j hj => by simpa using hprev j hj) li (by simpa using hget) htr
    rw [Nat.zero_add] at hscan
    unfold pair
    rw [hscan]
    rfl
  · intro hall
    have hscan := pairScanFrom_none poll maxPolls 0
      (fun j hj => by simpa using hall j hj)
    unfold pair
    rw [hscan]

/-- Witness for C7: a scan that discovers a device on the second poll
submits one add request for it; a scan that never discovers anything
returns none and no add request. -/
theorem c7_pair_witness :
    (pair
      (DevState.mk true false [] [] [] [] [] none [] DeviceType.Plug
        false)
      (fun n => if n = 1 then
        [("child_device_list",
          JVal.arr [JVal.obj [("device_id", JVal.s "x")]])]
        else [("child_device_list", JVal.arr [])]) 20 [] =
      (DevState.mk true false [] [] [] [] [] none [] DeviceType.Plug
        true,
       [("begin_scanning_child_device", []),
        ("add_child_device_list",
         [("child_device_list",
           JVal.arr [JVal.obj [("device_id", JVal.s "x")]])])],
       Except.ok (some []))) ∧
    (pair
      (DevState.mk true false [] [] [] [] [] none [] DeviceType.Plug
        false)
      (fun _ => [("child_device_list", JVal.arr [])]) 20 [] =
      (DevState.mk true false [] [] [] [] [] none [] DeviceType.Plug
        false,
       [("begin_scanning_child_device", [])], Except.ok none)) := by
  constructor
  · exact (c7_pair _ _ 20 []).1 1 (by omega)
      (fun j hj => by
        have hj0 : j = 0 := by omega
        subst hj0
        exact ⟨JVal.arr [], rfl, rfl⟩)
      (JVal.arr [JVal.obj [("device_id", JVal.s "x")]]) rfl rfl
  · exact (c7_pair _ _ 20 []).2 (fun j _ => ⟨JVal.arr [], rfl, rfl⟩)

/-! ### Feature registry lemmas -/

theorem addFeature_mono (feats : List String) (fid a : String)
    (h : a ∈ feats) : a ∈ addFeature feats fid := by
  unfold addFeature
  split
  · exact h
  · exact List.mem_append_left _ h

theorem addFeature_mem (feats : List String) (fid a : String)
    (h : a ∈ addFeature feats fid) : a ∈ feats ∨ a = fid := by
  unfold addFeature at h
  split at h
  · exact Or.inl h
  · rcases List.mem_append.mp h with h2 | h2
    · exact Or.inl h2
    · exact Or.inr (by simpa using h2)

theorem condAdd_mono (feats : List String) (fid : String) (c : Bool)
    (a : String) (h : a ∈ feats) :
    a ∈ (if c then addFeature feats fid else feats) := by
  split
  · exact addFeature_mono _ _ _ h
  · exact h

theorem condAdd_mem (feats : List String) (fid : String) (c : Bool)
    (a : String) (h : a ∈ (if c then addFeature feats fid else feats)) :
    a ∈ feats ∨ a = fid := by
  split at h
  · exact addFeature_mem _ _ _ h
  · exact Or.inl h

theorem foldl_addFeature_mono (l : List String) (feats : List String)
    (a : String) (h : a ∈ feats) : a ∈ l.foldl addFeature feats := by
  induction l generalizing feats with
  | nil => exact h
  | cons x rest ih => exact ih _ (addFeature_mono _ _ _ h)

theorem foldl_addFeature_mem (l feats : List String) (a : String)
    (h : a ∈ l.foldl addFeature feats) : a ∈ feats ∨ a ∈ l := by
  induction l generalizing feats with
  | nil => exact Or.inl h
  | cons x rest ih =>
    rcases ih _ h with h2 | h2
    · rcases addFeature_mem _ _ _ h2 with h3 | h3
      · exact Or.inl h3
      · exact Or.inr (by rw [h3]; exact List.mem_cons_self _ _)
    · exact Or.inr (List.mem_cons_of_mem _ h2)

theorem mods_foldl_mem (mods : List SMod) (feats : List String)
    (a : String)
    (h : a ∈ mods.foldl (fun acc m => m.features.foldl addFeature acc)
      feats) :
    a ∈ feats ∨ ∃ m2, m2 ∈ mods ∧ a ∈ m2.features := by
  induction mods generalizing feats with
  | nil => exact Or.inl h
  | cons m rest ih =>
    rcases ih _ h with h2 | ⟨m2, hm2, ha⟩
    · rcases foldl_addFeature_mem _ _ _ h2 with h3 | h3
      · exact Or.inl h3
      · exact Or.inr ⟨m, List.mem_cons_self _ _, h3⟩
    · exact Or.inr ⟨m2, List.mem_cons_of_mem _ hm2, ha⟩

theorem initialize_features_own_mem (info : List (String × JVal))
    (mods : List SMod) (feats : List String) (a : String)
    (h : a ∈ initialize_features_own info mods feats) :
    a ∈ feats ∨ a ∈ intrinsicFeatureIds ∨
      ∃ m2, m2 ∈ mods ∧ a ∈ m2.features := by
  simp only [initialize_features_own] at h
  rcases mods_foldl_mem _ _ _ h with h2 | h2
  · rcases condAdd_mem _ _ _ _ h2 with h3 | h3
    · rcases condAdd_mem _ _ _ _ h3 with h4 | h4
      · rcases condAdd_mem _ _ _ _ h4 with h5 | h5
        · rcases condAdd_mem _ _ _ _ h5 with h6 | h6
          · rcases condAdd_mem _ _ _ _ h6 with h7 | h7
            · rcases condAdd_mem _ _ _ _ h7 with h8 | h8
              · rcases addFeature_mem _ _ _ h8 with h9 | h9
                · exact Or.inl h9
                · exact Or.inr (Or.inl (by
                    rw [h9]; simp [intrinsicFeatureIds]))
              · exact Or.inr (Or.inl (by
                  rw [h8]; simp [intrinsicFeatureIds]))
            · exact Or.inr (Or.inl (by
                rw [h7]; simp [intrinsicFeatureIds]))
          · exact Or.inr (Or.inl (by
              rw [h6]; simp [intrinsicFeatureIds]))
        · exact Or.inr (Or.inl (by
            rw [h5]; simp [intrinsicFeatureIds]))
      · exact Or.inr (Or.inl (by
          rw [h4]; simp [intrinsicFeatureIds]))
    · exact Or.inr (Or.inl (by
        rw [h3]; simp [intrinsicFeatureIds]))
  · exact Or.inr (Or.inr h2)

/-! ### State-preservation helpers for the update pipeline -/

theorem getDeviceType_modules (s : DevState) :
    (getDeviceType s).1.modules = s.modules := by
  unfold getDeviceType
  split
  · rfl
  · cases hdt : dget s.info "type" with
    | none => rfl
    | some v => cases v <;> rfl

theorem childBranch_modules (s : DevState) (uc : Bool)
    (f : ChildState → Except KErr ChildState) :
    (childBranch s uc f).1.modules = s.modules := by
  unfold childBranch
  split
  · unfold runChildUpdates
    rfl
  · cases hg : getDeviceType s with
    | mk s2 r =>
      have hs2 : s2.modules = s.modules := by
        have h2 := getDeviceType_modules s
        rw [hg] at h2
        exact h2
      cases r with
      | error e => exact hs2
      | ok dt =>
        dsimp only
        split
        · unfold runChildUpdates
          exact hs2
        · exact hs2

theorem pushChildInfo_modules (s : DevState) :
    (pushChildInfo s).1.modules = s.modules := by
  unfold pushChildInfo
  cases h : try_get_response s.lastUpdate "get_child_device_list"
      (some []) with
  | error e => rfl
  | ok ci =>
    dsimp only
    split
    · rfl
    · cases h2 : dget ci "child_device_list" with
      | none => rfl
      | some v => cases v <;> rfl

theorem childHookSweep_modules (s : DevState) :
    (childHookSweep s).modules = s.modules := rfl

theorem initialize_features_modules (s : DevState) :
    (initialize_features s).modules = s.modules := rfl

theorem runChildUpdates_nil (s : DevState)
    (f : ChildState → Except KErr ChildState) (hch : s.children = []) :
    runChildUpdates s f = (s, Except.ok ()) := by
  cases s with
  | mk a1 a2 a3 a4 a5 a6 a7 a8 a9 a10 a11 =>
    dsimp only at hch
    subst hch
    rfl

theorem getDeviceType_cached (s : DevState)
    (hcache : s.deviceTypeCache ≠ DeviceType.Unknown) :
    getDeviceType s = (s, Except.ok s.deviceTypeCache) := by
  unfold getDeviceType
  rw [if_pos hcache]

theorem childBranch_nil (s : DevState) (uc : Bool)
    (f : ChildState → Except KErr ChildState) (hch : s.children = [])
    (hcache : s.deviceTypeCache ≠ DeviceType.Unknown) :
    childBranch s uc f = (s, Except.ok ()) := by
  unfold childBranch
  split
  · exact runChildUpdates_nil s f hch
  · rw [getDeviceType_cached s hcache]
    dsimp only
    split
    · exact runChildUpdates_nil s f hch
    · rfl

theorem pushChildInfo_none (s : DevState)
    (hnc : dget s.lastUpdate "get_child_device_list" = none) :
    pushChildInfo s = (s, Except.ok ()) := by
  unfold pushChildInfo try_get_response
  rw [hnc]
  rfl

theorem childHookSweep_nil (s : DevState) (hch : s.children = []) :
    childHookSweep s = s := by
  cases s with
  | mk a1 a2 a3 a4 a5 a6 a7 a8 a9 a10 a11 =>
    dsimp only at hch
    subst hch
    rfl

theorem update_nonfirst_ok (st : DevState) (uc : Bool) (now t0 : Int)
    (firstPhase : DevState → DevState × Except KErr Unit)
    (batch : List (String × Param) → Option (List (String × RVal)))
    (retry : String → Param → Option RVal)
    (childUpd : ChildState → Except KErr ChildState)
    (resp0 : List (String × RVal))
    (hcred : (st.credentials || st.credentialsHash) = true)
    (hlut : st.lastUpdateTime = some t0)
    (hch : st.children = [])
    (hcache : st.deviceTypeCache ≠ DeviceType.Unknown)
    (hmu : (modular_update { st with lastUpdateTime := some now } false
      now batch retry).2 = Except.ok resp0)
    (hnc : dget (modular_update { st with lastUpdateTime := some now }
      false now batch retry).1.lastUpdate "get_child_device_list" =
      none) :
    update st uc now firstPhase batch retry childUpd =
      (if (modular_update { st with lastUpdateTime := some now } false
          now batch retry).1.features.isEmpty then
        initialize_features (modular_update
          { st with lastUpdateTime := some now } false now batch
            retry).1
       else (modular_update { st with lastUpdateTime := some now } false
          now batch retry).1,
       Except.ok ()) := by
  have hcond : (!st.credentials && !st.credentialsHash) = false := by
    cases hc1 : st.credentials <;> cases hc2 : st.credentialsHash <;>
      simp [hc1, hc2] at hcred ⊢
  have hpres := mu_preserves { st with lastUpdateTime := some now } false
    now batch retry
  have hch3 : (modular_update { st with lastUpdateTime := some now }
      false now batch retry).1.children = [] := by
    rw [hpres.1]
    exact hch
  have hcache3 : (modular_update { st with lastUpdateTime := some now }
      false now batch retry).1.deviceTypeCache ≠ DeviceType.Unknown := by
    rw [hpres.2.2.2.2.2.1]
    exact hcache
  have hpair : modular_update { st with lastUpdateTime := some now }
      false now batch retry =
      ((modular_update { st with lastUpdateTime := some now } false now
        batch retry).1, Except.ok resp0) := by
    rw [← hmu]
  unfold update
  rw [hcond]
  simp only [Bool.false_eq_true, if_false, hlut, Option.isNone_some]
  rw [hpair]
  dsimp only
  rw [childBranch_nil _ uc childUpd hch3 hcache3]
  dsimp only
  rw [pushChildInfo_none _ hnc]
  dsimp only
  rw [childHookSweep_nil _ hch3]

theorem mu_names_subset (s : DevState) (fu : Bool) (t : Int)
    (batch : List (String × Param) → Option (List (String × RVal)))
    (retry : String → Param → Option RVal) (n : String)
    (hn : n ∈ (modular_update s fu t batch retry).1.modules.map
      SMod.name) :
    n ∈ s.modules.map SMod.name := by
  simp only [modular_update] at hn
  cases htry : try_get_response
      (if fu then dupdate s.lastUpdate (cycleResp s fu t batch retry)
       else cycleResp s fu t batch retry) "get_device_info" none with
  | error e =>
    rw [htry] at hn
    dsimp only at hn
    rw [buildPhase_mods] at hn
    have hmm : (s.modules.map (wlMark fu t)).map SMod.name =
        s.modules.map SMod.name := by
      rw [List.map_map]
      exact List.map_congr_left (fun m _ => wlMark_name fu t m)
    rw [hmm] at hn
    exact hn
  | ok vi =>
    rw [htry] at hn
    dsimp only at hn
    rw [buildPhase_mods] at hn
    rcases List.mem_map.mp hn with ⟨m2, hm2, he2⟩
    rcases List.mem_map.mp hm2 with ⟨m, hm, he⟩
    have hmf := List.mem_of_mem_filter hm
    rcases List.mem_map.mp hmf with ⟨m0, hm0, he0⟩
    apply List.mem_map.mpr
    refine ⟨m0, hm0, ?_⟩
    rw [← he2, ← he]
    split
    · rw [← he0]
      exact (wlMark_name fu t m0).symm
    · rw [← he0]
      exact (wlMark_name fu t m0).symm

theorem update_names_subset (st : DevState) (uc : Bool) (now t0 : Int)
    (firstPhase : DevState → DevState × Except KErr Unit)
    (batch : List (String × Param) → Option (List (String × RVal)))
    (retry : String → Param → Option RVal)
    (childUpd : ChildState → Except KErr ChildState)
    (hlut : st.lastUpdateTime = some t0) (n : String)
    (hn : n ∈ (update st uc now firstPhase batch retry
      childUpd).1.modules.map SMod.name) :
    n ∈ st.modules.map SMod.name := by
  unfold update at hn
  by_cases hcond : (!st.credentials && !st.credentialsHash) = true
  · rw [if_pos hcond] at hn
    exact hn
  · rw [if_neg hcond] at hn
    simp only [hlut, Option.isNone_some, Bool.false_eq_true, if_false]
      at hn
    cases hmu2 : modular_update { st with lastUpdateTime := some now }
        false now batch retry with
    | mk st3 r =>
      rw [hmu2] at hn
      have hst3 : ∀ n2, n2 ∈ st3.modules.map SMod.name →
          n2 ∈ st.modules.map SMod.name := by
        intro n2 hn2
        have hmm : n2 ∈ (modular_update
            { st with lastUpdateTime := some now } false now batch
              retry).1.modules.map SMod.name := by
          rw [hmu2]
          exact hn2
        exact mu_names_subset { st with lastUpdateTime := some now }
          false now batch retry n2 hmm
      cases r with
      | error e =>
        dsimp only at hn
        exact hst3 n hn
      | ok v =>
        dsimp only at hn
        cases hcb : childBranch st3 uc childUpd with
        | mk st4 r2 =>
          rw [hcb] at hn
          have hst4 : st4.modules = st3.modules := by
            have h2 := childBranch_modules st3 uc childUpd
            rw [hcb] at h2
            exact h2
          cases r2 with
          | error e =>
            dsimp only at hn
            rw [hst4] at hn
            exact hst3 n hn
          | ok v2 =>
            dsimp only at hn
            cases hpc : pushChildInfo st4 with
            | mk st5 r3 =>
              rw [hpc] at hn
              have hst5 : st5.modules = st4.modules := by
                have h2 := pushChildInfo_modules st4
                rw [hpc] at h2
                exact h2
              cases r3 with
              | error e =>
                dsimp only at hn
                rw [hst5, hst4] at hn
                exact hst3 n hn
              | ok v3 =>
                dsimp only at hn
                split at hn
                · rw [initialize_features_modules, childHookSweep_modules,
                    hst5, hst4] at hn
                  exact hst3 n hn
                · rw [childHookSweep_modules, hst5, hst4] at hn
                  exact hst3 n hn

theorem mods_foldl_mono (mods : List SMod) (feats : List String)
    (a : String) (h : a ∈ feats) :
    a ∈ mods.foldl (fun acc m => m.features.foldl addFeature acc)
      feats := by
  induction mods generalizing feats with
  | nil => exact h
  | cons m rest ih => exact ih _ (foldl_addFeature_mono _ _ _ h)

theorem initialize_features_own_mono (info : List (String × JVal))
    (mods : List SMod) (feats : List String) (a : String)
    (h : a ∈ feats) : a ∈ initialize_features_own info mods feats := by
  simp only [initialize_features_own]
  apply mods_foldl_mono
  apply condAdd_mono
  apply condAdd_mono
  apply condAdd_mono
  apply condAdd_mono
  apply condAdd_mono
  apply condAdd_mono
  exact addFeature_mono _ _ _ h

/-- C2 (amended): on a cycle that reaches the hook phase (valid
credentials, non-first cycle, childless device with a cached type, a
response carrying `get_device_info` and no pushed child list), a module
whose post-update hook raises is handled: the exception is caught and
`update` returns ok, the other modules' hooks still ran and they survive,
the failing module is removed from the module collection and stays absent
on every subsequent update cycle; features registered before the eviction
persist, and when the feature set had not yet been initialized, the
evicted module contributes none of its feature ids to it. -/
theorem c2_module_eviction (st : DevState) (m : SMod) (uc : Bool)
    (now t0 : Int)
    (firstPhase : DevState → DevState × Except KErr Unit)
    (batch : List (String × Param) → Option (List (String × RVal)))
    (retry : String → Param → Option RVal)
    (childUpd : ChildState → Except KErr ChildState)
    (resp0 : List (String × RVal))
    (hcred : (st.credentials || st.credentialsHash) = true)
    (hlut : st.lastUpdateTime = some t0)
    (hch : st.children = [])
    (hcache : st.deviceTypeCache ≠ DeviceType.Unknown)
    (hnd : (st.modules.map SMod.name).Nodup)
    (hm : m ∈ st.modules) (hmf : m.hookOk = false)
    (hmu : (modular_update { st with lastUpdateTime := some now } false
      now batch retry).2 = Except.ok resp0)
    (hnc : dget (modular_update { st with lastUpdateTime := some now }
      false now batch retry).1.lastUpdate "get_child_device_list" =
      none) :
    (update st uc now firstPhase batch retry childUpd).2 =
      Except.ok () ∧
    m.name ∉ (update st uc now firstPhase batch retry
      childUpd).1.modules.map SMod.name ∧
    (∀ m2, m2 ∈ st.modules → m2.hookOk = true →
      m2.name ∈ (update st uc now firstPhase batch retry
        childUpd).1.modules.map SMod.name) ∧
    (∀ uc2 now2 fp2 b2 r2 cu2, m.name ∉
      (update (update st uc now firstPhase batch retry childUpd).1 uc2
        now2 fp2 b2 r2 cu2).1.modules.map SMod.name) ∧
    (∀ f, f ∈ st.features →
      f ∈ (update st uc now firstPhase batch retry
        childUpd).1.features) ∧
    (st.features = [] → ∀ fid, fid ∈ m.features →
      fid ∉ intrinsicFeatureIds →
      (∀ m2, m2 ∈ st.modules → m2.hookOk = true → fid ∉ m2.features) →
      fid ∉ (update st uc now firstPhase batch retry
        childUpd).1.features) := by
  have hup := update_nonfirst_ok st uc now t0 firstPhase batch retry
    childUpd resp0 hcred hlut hch hcache hmu hnc
  have hpres := mu_preserves { st with lastUpdateTime := some now }
    false now batch retry
  have hmods : (modular_update { st with lastUpdateTime := some now }
      false now batch retry).1.modules =
      (st.modules.filter (fun m2 => handle_module_post_update_hook
        m2)).map (cycleStamp false now) :=
    mu_modules_ok_nodup { st with lastUpdateTime := some now } false now
      batch retry resp0 hnd hmu
  have hfeat3 : (modular_update { st with lastUpdateTime := some now }
      false now batch retry).1.features = st.features := hpres.2.1
  have hupmods : (update st uc now firstPhase batch retry
      childUpd).1.modules =
      (st.modules.filter (fun m2 => handle_module_post_update_hook
        m2)).map (cycleStamp false now) := by
    rw [hup]
    dsimp only
    split
    · rw [initialize_features_modules]
      exact hmods
    · exact hmods
  have hnames : (update st uc now firstPhase batch retry
      childUpd).1.modules.map SMod.name =
      (st.modules.filter (fun m2 => handle_module_post_update_hook
        m2)).map SMod.name := by
    rw [hupmods, List.map_map]
    exact List.map_congr_left (fun m2 _ => cycleStamp_name false now m2)
  have habs : m.name ∉ (update st uc now firstPhase batch retry
      childUpd).1.modules.map SMod.name := by
    rw [hnames]
    intro hmem
    rcases List.mem_map.mp hmem with ⟨m2, hm2f, he2⟩
    have hm2 : m2 ∈ st.modules := List.mem_of_mem_filter hm2f
    have heq : m2 = m := List.inj_on_of_nodup_map hnd hm2 hm he2
    have hhook := (List.mem_filter.mp hm2f).2
    rw [heq] at hhook
    have : m.hookOk = true := by
      simpa [handle_module_post_update_hook] using hhook
    rw [hmf] at this
    cases this
  have hlutF : (update st uc now firstPhase batch retry
      childUpd).1.lastUpdateTime = some now := by
    rw [hup]
    dsimp only
    have hm3 : (modular_update { st with lastUpdateTime := some now }
        false now batch retry).1.lastUpdateTime = some now := by
      rw [hpres.2.2.1]
    split
    · exact hm3
    · exact hm3
  refine ⟨?_, habs, ?_, ?_, ?_, ?_⟩
  · rw [hup]
  · intro m2 hm2 hh2
    rw [hnames]
    apply List.mem_map.mpr
    refine ⟨m2, List.mem_filter.mpr ⟨hm2, ?_⟩, rfl⟩
    show handle_module_post_update_hook m2 = true
    exact hh2
  · intro uc2 now2 fp2 b2 r2 cu2 hmem
    exact habs (update_names_subset _ uc2 now2 now fp2 b2 r2 cu2 hlutF
      m.name hmem)
  · intro f hf
    rw [hup]
    dsimp only
    split
    · have hf3 : f ∈ (modular_update
          { st with lastUpdateTime := some now } false now batch
            retry).1.features := by
        rw [hfeat3]
        exact hf
      exact initialize_features_own_mono _ _ _ _ hf3
    · rw [hfeat3]
      exact hf
  · intro hfe fid hfidm hfidint hother
    rw [hup]
    dsimp only
    have hfeat3e : (modular_update { st with lastUpdateTime := some now }
        false now batch retry).1.features = [] := by
      rw [hfeat3]
      exact hfe
    have hempty : (modular_update { st with lastUpdateTime := some now }
        false now batch retry).1.features.isEmpty = true := by
      rw [hfeat3e]
      rfl
    rw [if_pos hempty]
    intro hmem
    have hmem2 : fid ∈ initialize_features_own
        (modular_update { st with lastUpdateTime := some now } false now
          batch retry).1.info
        (modular_update { st with lastUpdateTime := some now } false now
          batch retry).1.modules
        (modular_update { st with lastUpdateTime := some now } false now
          batch retry).1.features := hmem
    rcases initialize_features_own_mem _ _ _ _ hmem2 with h1 | h1 |
      ⟨m2, hm2, hfid2⟩
    · rw [hfeat3e] at h1
      cases h1
    · exact hfidint h1
    · rw [hmods] at hm2
      rcases List.mem_map.mp hm2 with ⟨m0, hm0f, he0⟩
      have hm0 : m0 ∈ st.modules := List.mem_of_mem_filter hm0f
      have hhook : m0.hookOk = true := by
        have h2 := (List.mem_filter.mp hm0f).2
        simpa [handle_module_post_update_hook] using h2
      have hfeats0 : m2.features = m0.features := by
        rw [← he0]
        exact cycleStamp_features false now m0
      rw [hfeats0] at hfid2
      exact hother m0 hm0 hhook hfid2

/-- C2 counterexample: a module whose hook raises on a cycle after the
feature set was already initialized is evicted from the module set, yet
the feature it registered earlier stays in the device feature set for
that cycle and the next one — contradicting "contributes nothing to the
device's feature set" on subsequent cycles. -/
theorem c2_feature_counterexample :
    ((update
      (DevState.mk true false [] []
        [SMod.mk "m" [("q", none)] 0 (some 1) false false ["mf"]]
        [] [] (some 1) ["mf"] DeviceType.Plug false)
      true 2 (fun s => (s, Except.ok ()))
      (fun _ => some [("get_device_info", RVal.payload [])])
      (fun _ _ => none) (fun c => Except.ok c)).2 = Except.ok ()) ∧
    ((update
      (DevState.mk true false [] []
        [SMod.mk "m" [("q", none)] 0 (some 1) false false ["mf"]]
        [] [] (some 1) ["mf"] DeviceType.Plug false)
      true 2 (fun s => (s, Except.ok ()))
      (fun _ => some [("get_device_info", RVal.payload [])])
      (fun _ _ => none)
      (fun c => Except.ok c)).1.modules.map SMod.name = []) ∧
    ("mf" ∈ (update
      (DevState.mk true false [] []
        [SMod.mk "m" [("q", none)] 0 (some 1) false false ["mf"]]
        [] [] (some 1) ["mf"] DeviceType.Plug false)
      true 2 (fun s => (s, Except.ok ()))
      (fun _ => some [("get_device_info", RVal.payload [])])
      (fun _ _ => none) (fun c => Except.ok c)).1.features) ∧
    ("mf" ∈ (update
      (update
        (DevState.mk true false [] []
          [SMod.mk "m" [("q", none)] 0 (some 1) false false ["mf"]]
          [] [] (some 1) ["mf"] DeviceType.Plug false)
        true 2 (fun s => (s, Except.ok ()))
        (fun _ => some [("get_device_info", RVal.payload [])])
        (fun _ _ => none) (fun c => Except.ok c)).1
      true 3 (fun s => (s, Except.ok ()))
      (fun _ => some [("get_device_info", RVal.payload [])])
      (fun _ _ => none) (fun c => Except.ok c)).1.features) := by
  refine ⟨rfl, rfl, ?_, ?_⟩
  · exact List.mem_cons_self _ _
  · exact List.mem_cons_self _ _

/-- Witness for C2 at a concrete two-module device: the raising module is
evicted, the healthy module survives, the evicted module's feature id
never enters the (not yet initialized) feature set, and update returns
ok. -/
theorem c2_module_eviction_witness :
    ((update
      (DevState.mk true false [] []
        [SMod.mk "a" [("qa", none)] 0 (some 1) false true ["af"],
         SMod.mk "b" [("qb", none)] 0 (some 1) false false ["bf"]]
        [] [] (some 1) [] DeviceType.Plug false)
      true 2 (fun s => (s, Except.ok ()))
      (fun _ => some [("get_device_info", RVal.payload [])])
      (fun _ _ => none) (fun c => Except.ok c)).2 = Except.ok ()) ∧
    ("b" ∉ (update
      (DevState.mk true false [] []
        [SMod.mk "a" [("qa", none)] 0 (some 1) false true ["af"],
         SMod.mk "b" [("qb", none)] 0 (some 1) false false ["bf"]]
        [] [] (some 1) [] DeviceType.Plug false)
      true 2 (fun s => (s, Except.ok ()))
      (fun _ => some [("get_device_info", RVal.payload [])])
      (fun _ _ => none)
      (fun c => Except.ok c)).1.modules.map SMod.name) ∧
    ("a" ∈ (update
      (DevState.mk true false [] []
        [SMod.mk "a" [("qa", none)] 0 (some 1) false true ["af"],
         SMod.mk "b" [("qb", none)] 0 (some 1) false false ["bf"]]
        [] [] (some 1) [] DeviceType.Plug false)
      true 2 (fun s => (s, Except.ok ()))
      (fun _ => some [("get_device_info", RVal.payload [])])
      (fun _ _ => none)
      (fun c => Except.ok c)).1.modules.map SMod.name) ∧
    ("bf" ∉ (update
      (DevState.mk true false [] []
        [SMod.mk "a" [("qa", none)] 0 (some 1) false true ["af"],
         SMod.mk "b" [("qb", none)] 0 (some 1) false false ["bf"]]
        [] [] (some 1) [] DeviceType.Plug false)
      true 2 (fun s => (s, Except.ok ()))
      (fun _ => some [("get_device_info", RVal.payload [])])
      (fun _ _ => none) (fun c => Except.ok c)).1.features) := by
  have h := c2_module_eviction
    (DevState.mk true false [] []
      [SMod.mk "a" [("qa", none)] 0 (some 1) false true ["af"],
       SMod.mk "b" [("qb", none)] 0 (some 1) false false ["bf"]]
      [] [] (some 1) [] DeviceType.Plug false)
    (SMod.mk "b" [("qb", none)] 0 (some 1) false false ["bf"])
    true 2 1 (fun s => (s, Except.ok ()))
    (fun _ => some [("get_device_info", RVal.payload [])])
    (fun _ _ => none) (fun c => Except.ok c)
    [("get_device_info", RVal.payload [])]
    rfl rfl rfl (by decide) (by decide)
    (List.mem_cons_of_mem _ (List.mem_cons_self _ _)) rfl rfl rfl
  refine ⟨h.1, h.2.1, ?_, ?_⟩
  · exact h.2.2.1 (SMod.mk "a" [("qa", none)] 0 (some 1) false true
      ["af"]) (List.mem_cons_self _ _) rfl
  · exact h.2.2.2.2.2 rfl "bf" (List.mem_cons_self _ _) (by decide)
      (by decide)
